import Mathlib

/-!
The program xtuneset.c: argument parsing, parameter classification, cleanup.

A shallow embedding of `main` of `cplex/examples/src/c_x/xtuneset.c`.

* C `int` and `CPXLONG` values are mathematical integers; the one narrowing
  conversion of the program, `(int)l`, is `toInt32`.
* An argument string is a `String` holding the characters before the
  terminating NUL.
* The CPLEX library and the allocator are outside the program.  A `Script`
  lists what each call of one run answers; `main` is a function of the
  argument vector and the script, and records every call it makes in a trace.
* Text written to stdout / stderr is not modelled, the call of `usage` apart.
* A run that leaves defined behaviour (a null or unterminated string handed to
  a string function, a buffer overrun by the library) ends in a `Fault`.
-/

namespace Xtuneset

/-! ## Constants -/

/-- Size of the two file-name buffers: `#define BUFSZ 128`. -/
def BUFSZ : Nat := 128

/-- Largest value of a C `int` (32 bits). -/
def INT_MAX : Int := 2147483647

/-- Smallest value of a C `int` (32 bits). -/
def INT_MIN : Int := -2147483648

/-- The constants `main` takes from the CPLEX header `ilcplex/cplexx.h`, which
is not part of the repository: they are parameters of the model. -/
structure CpxConst where
  CPX_TUNE_AVERAGE : Int
  CPX_TUNE_MINMAX : Int
  CPXPARAM_ScreenOutput : Int
  CPXPARAM_Tune_Measure : Int
  CPX_ON : Int
  CPX_PARAMTYPE_INT : Int
  CPX_PARAMTYPE_LONG : Int
  CPX_PARAMTYPE_DOUBLE : Int
  CPXERR_NO_MEMORY : Int

/-- The values these constants have in the headers of CPLEX 12.6.1. -/
def cplex1261 : CpxConst where
  CPX_TUNE_AVERAGE := 1
  CPX_TUNE_MINMAX := 2
  CPXPARAM_ScreenOutput := 1035
  CPXPARAM_Tune_Measure := 1110
  CPX_ON := 1
  CPX_PARAMTYPE_INT := 1
  CPX_PARAMTYPE_LONG := 4
  CPX_PARAMTYPE_DOUBLE := 2
  CPXERR_NO_MEMORY := 1001

/-- The three parameter types the classification loop tests for are pairwise
different numbers. -/
def CpxConst.TypesDistinct (K : CpxConst) : Prop :=
  K.CPX_PARAMTYPE_INT ≠ K.CPX_PARAMTYPE_LONG ∧
  K.CPX_PARAMTYPE_INT ≠ K.CPX_PARAMTYPE_DOUBLE ∧
  K.CPX_PARAMTYPE_LONG ≠ K.CPX_PARAMTYPE_DOUBLE

/-! ## Faults: executions the C standard leaves undefined -/

/-- Ways in which a run of `main` leaves defined behaviour. -/
inductive Fault
  /-- `strncpy (buf, argv[i], BUFSZ)` with `i = argc`: `argv[argc]` is the
  null pointer. -/
  | nullArg (i : Nat)
  /-- A buffer filled by `strncpy` without a terminating NUL is read as a
  string. -/
  | unterminated
  /-- The library stored more parameter numbers than the buffer holds. -/
  | overrun
  /-- The variable `tunemeasure` is read before it was assigned. -/
  | uninitialised
  /-- The iteration bound of the model of the option loop was too small. -/
  | fuel
  deriving DecidableEq, Repr

deriving instance DecidableEq for Except

/-! ## Lines 85-109: the option loop -/

/-- Contents of a `char buf[BUFSZ]` after `*buf = 0` or `strncpy`. -/
inductive CBuf
  /-- The buffer holds the NUL-terminated string `s`. -/
  | terminated (s : String)
  /-- The buffer holds `BUFSZ` characters and no NUL. -/
  | unterminated (s : String)
  deriving DecidableEq, Repr

/-- `strncpy (buf, src, BUFSZ)`: a source shorter than `BUFSZ` is copied and
padded with NULs, a longer one is cut after `BUFSZ` characters, without a
terminator. -/
def strncpy (src : String) : CBuf :=
  if src.length < BUFSZ then CBuf.terminated src
  else CBuf.unterminated (String.mk (src.data.take BUFSZ))

/-- The test `*buf` (`*buf != 0`): the first character is not NUL. -/
def CBuf.nonEmpty : CBuf → Bool
  | CBuf.terminated s => !s.data.isEmpty
  | CBuf.unterminated _ => true

/-- The buffer passed to a function that reads a string. -/
def CBuf.read : CBuf → Except Fault String
  | CBuf.terminated s => Except.ok s
  | CBuf.unterminated _ => Except.error Fault.unterminated

/-- The character `s[k]` of a C string for `k` up to its length: position
`length` holds the terminating NUL. -/
def charAt (s : String) (k : Nat) : Char :=
  (s.data.get? k).getD (Char.ofNat 0)

/-- The variables the option loop works on. -/
structure Opts where
  /-- The loop index `i`. -/
  i : Nat
  /-- The variable `tunemeasure`; `none` while it is uninitialised. -/
  tunemeasure : Option Int
  /-- The variable `mset`. -/
  mset : Bool
  fixedfile : CBuf
  tunedfile : CBuf
  deriving DecidableEq, Repr

/-- The state before the loop (lines 85-87): both buffers hold the empty
string, `i = 1`. -/
def Opts.init : Opts :=
  { i := 1, tunemeasure := none, mset := false,
    fixedfile := CBuf.terminated "", tunedfile := CBuf.terminated "" }

/-- The loop `for (i = 1; i < argc; i++)` of lines 87-107, from the state
`st`, running at most `fuel` iterations.  `argv.length` is `argc`;
`argv[argc]` is the null pointer. -/
def parseLoop (K : CpxConst) (argv : List String) : Nat → Opts → Except Fault Opts
  | 0, st => if st.i < argv.length then Except.error Fault.fuel else Except.ok st
  | fuel + 1, st =>
    if h : st.i < argv.length then
      let a := argv.get ⟨st.i, h⟩
      if charAt a 0 ≠ '-' then Except.ok st
      else if charAt a 1 = 'a' then
        parseLoop K argv fuel
          { st with tunemeasure := some K.CPX_TUNE_AVERAGE, mset := true, i := st.i + 1 }
      else if charAt a 1 = 'm' then
        parseLoop K argv fuel
          { st with tunemeasure := some K.CPX_TUNE_MINMAX, mset := true, i := st.i + 1 }
      else if charAt a 1 = 'f' then
        match argv.get? (st.i + 1) with
        | none => Except.error (Fault.nullArg (st.i + 1))
        | some b => parseLoop K argv fuel { st with fixedfile := strncpy b, i := st.i + 2 }
      else if charAt a 1 = 'o' then
        match argv.get? (st.i + 1) with
        | none => Except.error (Fault.nullArg (st.i + 1))
        | some b => parseLoop K argv fuel { st with tunedfile := strncpy b, i := st.i + 2 }
      else parseLoop K argv fuel { st with i := st.i + 1 }
    else Except.ok st

/-- Lines 85-107: the option loop from its initial state.  It runs fewer than
`argc` iterations. -/
def parseArgs (K : CpxConst) (argv : List String) : Except Fault Opts :=
  parseLoop K argv argv.length Opts.init

/-- Line 108: `filecnt = argc - i`. -/
def filecntOf (argv : List String) (o : Opts) : Int :=
  (argv.length : Int) - (o.i : Int)

/-- Line 109: `filenames = argv + i`, the entries up to `argv[argc - 1]`. -/
def filenamesOf (argv : List String) (o : Opts) : List String :=
  argv.drop o.i

/-! ## Lines 189-203: a LONG parameter in the 32-bit list -/

/-- The conversion `(int)l` of a `CPXLONG` to a 32-bit `int`. -/
def toInt32 (x : Int) : Int :=
  (x + 2147483648) % 4294967296 - 2147483648

/-- Lines 197-200: `if (l > INT_MAX) l = INT_MAX; else if (l < INT_MIN) l = INT_MIN;`. -/
def clampLong (l : Int) : Int :=
  if l > INT_MAX then INT_MAX else if l < INT_MIN then INT_MIN else l

/-- Lines 197-201: the value stored in `ival[icnt]` for a LONG parameter
whose value is `l`. -/
def storedLong (l : Int) : Int :=
  toInt32 (clampLong l)

/-! ## The world outside the program -/

/-- A C `double`, which `main` only copies: its bit pattern. -/
structure CDouble where
  bits : Nat
  deriving DecidableEq, Repr

/-- The five array pointers of `main`. -/
inductive Ptr
  | fnum | inum | ival | dnum | dval
  deriving DecidableEq, Repr

/-- A call of the CPLEX library, with the arguments `main` passes and, for
`openCPLEX` and `tuneparamprobset`, what the call stores besides its status. -/
inductive Call
  /-- `CPXXopenCPLEX (&status)`; `env` tells whether it returned a handle. -/
  | openCPLEX (env : Bool)
  | closeCPLEX
  /-- `CPXXgeterrorstring (env, status, errmsg)`. -/
  | geterrorstring (code : Int)
  | setintparam (whichparam value : Int)
  | readcopyparam (file : String)
  /-- `CPXXgetchgparam (env, &fcnt, buf, pspace, &surplus)`; `buf` tells
  whether a buffer was passed. -/
  | getchgparam (buf : Bool) (pspace : Int)
  | getparamtype (whichparam : Int)
  | getintparam (whichparam : Int)
  | getlongparam (whichparam : Int)
  | getdblparam (whichparam : Int)
  | setdefaults
  /-- `CPXXtuneparamprobset`: the file count and names, the `icnt` entries of
  `inum` and `ival`, the `dcnt` entries of `dnum` and `dval` (an entry is
  `none` when the cell was never written), and the `tunestat` stored. -/
  | tuneparamprobset (filecnt : Int) (filenames : List String)
      (icnt : Int) (inum ival : List (Option Int))
      (dcnt : Int) (dnum : List (Option Int)) (dval : List (Option CDouble))
      (tunestat : Int)
  | writeparam (file : String)
  deriving DecidableEq, Repr

/-- What a run of `main` does to the world, in order. -/
inductive Event
  /-- The call `usage (argv[0])`. -/
  | usage
  /-- A library call made at source line `line`, and the status it returned
  (for `openCPLEX` the status it stored; 0 for `geterrorstring`). -/
  | lib (line : Nat) (c : Call) (status : Int)
  /-- The call `malloc (bytes)` assigned to the pointer `p`; `ok` tells whether
  the result was non-null. -/
  | malloc (p : Ptr) (bytes : Nat) (ok : Bool)
  /-- The call `free (p)`. -/
  | free (p : Ptr)
  deriving DecidableEq, Repr

/-- The answers of the library and of the allocator during one run.  An
output variable is given by its content after the call, whether or not the
call stored into it. -/
structure Script where
  /-- Line 113: `CPXXopenCPLEX` returned a non-null handle. -/
  openEnv : Bool
  /-- Line 113: the content of `status` after `CPXXopenCPLEX`. -/
  openStatus : Int
  /-- Line 130: `CPXXsetintparam (env, CPXPARAM_ScreenOutput, CPX_ON)`. -/
  setScreen : Int
  /-- Line 138: `CPXXsetintparam (env, CPXPARAM_Tune_Measure, tunemeasure)`. -/
  setMeasure : Int
  /-- Line 152: `CPXXreadcopyparam`. -/
  readcopy : Int
  /-- Line 159: the status of the sizing call of `CPXXgetchgparam`. -/
  sizeStatus : Int
  /-- Line 159: the content of `surplus` after the sizing call. -/
  surplus : Int
  /-- Lines 162-166: `malloc` returned a non-null pointer. -/
  mallocOk : Ptr → Bool
  /-- Line 178: the status of the second `CPXXgetchgparam`. -/
  chgStatus : Int
  /-- Line 178: the parameter numbers the call stored in `fnum`; their number
  is what it stored in `fcnt`. -/
  changed : List Int
  /-- Line 183, iteration `i`: status, and the content of `itype`. -/
  ptype : Nat → Int × Int
  /-- Line 186, iteration `i`: status, and the content of `ival[icnt]`. -/
  getint : Nat → Int × Int
  /-- Line 192, iteration `i`: status, and the content of `l`. -/
  getlong : Nat → Int × Int
  /-- Line 206, iteration `i`: status, and the content of `dval[dcnt]`. -/
  getdbl : Nat → Int × CDouble
  /-- Line 211: `CPXXsetdefaults`. -/
  setdefaults : Int
  /-- Line 212: `CPXXsetintparam (env, CPXPARAM_ScreenOutput, CPX_ON)`. -/
  resetScreen : Int
  /-- Line 217: the status of `CPXXtuneparamprobset`. -/
  tune : Int
  /-- Line 217: the content of `tunestat` after the call. -/
  tunestat : Int
  /-- Line 235: `CPXXwriteparam`. -/
  write : Int
  /-- Line 257: `CPXXcloseCPLEX`. -/
  close : Int

/-! ## Lines 181-209: the classification loop -/

/-- The cells of an array, by index; `none` is a cell never written. -/
abbrev Arr (α : Type) := Int → Option α

/-- An array none of whose cells was written. -/
def Arr.fresh {α : Type} : Arr α := fun _ => none

/-- The assignment `a[k] = v`. -/
def Arr.write {α : Type} (a : Arr α) (k : Int) (v : α) : Arr α :=
  fun j => if j = k then some v else a j

/-- The cells `a[0]`, ..., `a[n-1]`. -/
def Arr.firstN {α : Type} (a : Arr α) (n : Int) : List (Option α) :=
  (List.range n.toNat).map (fun (k : Nat) => a (k : Int))

/-- The variables of the classification loop, the events of its calls, and
the array cells it assigned (pointer and index). -/
structure Buckets where
  i : Nat
  icnt : Int
  dcnt : Int
  inum : Arr Int
  ival : Arr Int
  dnum : Arr Int
  dval : Arr CDouble
  trace : List Event
  writes : List (Ptr × Int)

/-- The state before the loop: `icnt = 0`, `dcnt = 0`, `i = 0`. -/
def Buckets.init : Buckets :=
  { i := 0, icnt := 0, dcnt := 0, inum := Arr.fresh, ival := Arr.fresh,
    dnum := Arr.fresh, dval := Arr.fresh, trace := [], writes := [] }

/-- Lines 182-208 and the `i++` of line 181: one iteration, for `p = fnum[i]`. -/
def classifyStep (K : CpxConst) (S : Script) (p : Int) (b : Buckets) : Buckets :=
  let itype := (S.ptype b.i).2
  let t := b.trace ++ [Event.lib 183 (Call.getparamtype p) (S.ptype b.i).1]
  if itype = K.CPX_PARAMTYPE_INT then
    { b with
      i := b.i + 1
      inum := b.inum.write b.icnt p
      ival := b.ival.write b.icnt (S.getint b.i).2
      icnt := b.icnt + 1
      trace := t ++ [Event.lib 186 (Call.getintparam p) (S.getint b.i).1]
      writes := b.writes ++ [(Ptr.inum, b.icnt), (Ptr.ival, b.icnt)] }
  else if itype = K.CPX_PARAMTYPE_LONG then
    { b with
      i := b.i + 1
      inum := b.inum.write b.icnt p
      ival := b.ival.write b.icnt (storedLong (S.getlong b.i).2)
      icnt := b.icnt + 1
      trace := t ++ [Event.lib 192 (Call.getlongparam p) (S.getlong b.i).1]
      writes := b.writes ++ [(Ptr.inum, b.icnt), (Ptr.ival, b.icnt)] }
  else if itype = K.CPX_PARAMTYPE_DOUBLE then
    { b with
      i := b.i + 1
      dnum := b.dnum.write b.dcnt p
      dval := b.dval.write b.dcnt (S.getdbl b.i).2
      dcnt := b.dcnt + 1
      trace := t ++ [Event.lib 206 (Call.getdblparam p) (S.getdbl b.i).1]
      writes := b.writes ++ [(Ptr.dnum, b.dcnt), (Ptr.dval, b.dcnt)] }
  else { b with i := b.i + 1, trace := t }

/-- Lines 181-209: `for (i = 0; i < fcnt; i++)` over the `fcnt` entries of
`fnum` not yet visited, from the state `b`. -/
def classifyLoop (K : CpxConst) (S : Script) : List Int → Buckets → Buckets
  | [], b => b
  | p :: rest, b => classifyLoop K S rest (classifyStep K S p b)

/-! ## `main` -/

/-- The machine state on arrival at the label `TERMINATE`. -/
structure AtTerminate where
  /-- The variable `status`. -/
  status : Int
  /-- Whether `env` is non-null. -/
  env : Bool
  /-- Which of the five array pointers are non-null. -/
  held : Ptr → Bool
  trace : List Event

/-- The outcome of a part of `main`: it jumped to `TERMINATE`, or control
reached the end of the part. -/
inductive Step (α : Type)
  | terminate (x : AtTerminate)
  | next (a : α)

/-- All five array pointers null, as they are initialised in lines 68-76. -/
def noneHeld : Ptr → Bool := fun _ => false

/-- The argument `fcnt*sizeof(*p)` of `malloc`: the `int` is converted to the
64-bit `size_t` and the product is taken modulo `2^64`. -/
def sizeBytes (fcnt : Int) (eltSize : Nat) : Nat :=
  ((fcnt * (eltSize : Int)) % 18446744073709551616).toNat

/-- Lines 113-144: open the environment, turn the screen output on, set the
tuning measure when `-a` or `-m` was given.  The result is the trace. -/
def openPhase (K : CpxConst) (S : Script) (o : Opts) : Except Fault (Step (List Event)) :=
  let t0 := [Event.lib 113 (Call.openCPLEX S.openEnv) S.openStatus]
  if S.openEnv = false then
    Except.ok (Step.terminate
      { status := S.openStatus, env := false, held := noneHeld,
        trace := t0 ++ [Event.lib 118 (Call.geterrorstring S.openStatus) 0] })
  else
    let t1 := t0 ++ [Event.lib 130
      (Call.setintparam K.CPXPARAM_ScreenOutput K.CPX_ON) S.setScreen]
    if S.setScreen ≠ 0 then
      Except.ok (Step.terminate
        { status := S.setScreen, env := true, held := noneHeld, trace := t1 })
    else if o.mset then
      match o.tunemeasure with
      | none => Except.error Fault.uninitialised
      | some tunemeasure =>
        let t2 := t1 ++ [Event.lib 138
          (Call.setintparam K.CPXPARAM_Tune_Measure tunemeasure) S.setMeasure]
        if S.setMeasure ≠ 0 then
          Except.ok (Step.terminate
            { status := S.setMeasure, env := true, held := noneHeld, trace := t2 })
        else Except.ok (Step.next t2)
    else Except.ok (Step.next t1)

/-- What the part of lines 149-213 hands to the tuning call. -/
structure Fixed where
  held : Ptr → Bool
  icnt : Int
  dcnt : Int
  inum : Arr Int
  ival : Arr Int
  dnum : Arr Int
  dval : Arr CDouble
  trace : List Event

/-- The events of lines 162-166: the five calls of `malloc`. -/
def mallocEvents (S : Script) (fcnt : Int) : List Event :=
  [Event.malloc Ptr.fnum (sizeBytes fcnt 4) (S.mallocOk Ptr.fnum),
   Event.malloc Ptr.inum (sizeBytes fcnt 4) (S.mallocOk Ptr.inum),
   Event.malloc Ptr.ival (sizeBytes fcnt 4) (S.mallocOk Ptr.ival),
   Event.malloc Ptr.dnum (sizeBytes fcnt 4) (S.mallocOk Ptr.dnum),
   Event.malloc Ptr.dval (sizeBytes fcnt 8) (S.mallocOk Ptr.dval)]

/-- The test of lines 167-171: one of the five pointers is null. -/
def anyNull (S : Script) : Bool :=
  !S.mallocOk Ptr.fnum || !S.mallocOk Ptr.inum || !S.mallocOk Ptr.ival ||
  !S.mallocOk Ptr.dnum || !S.mallocOk Ptr.dval

/-- Lines 149-213: when a fixed-parameter file was given, read it, fetch the
changed parameters and sort them into the integer and the double lists, then
restore the defaults.  `t` is the trace so far. -/
def fixedPhase (K : CpxConst) (S : Script) (o : Opts) (t : List Event) :
    Except Fault (Step Fixed) :=
  if o.fixedfile.nonEmpty then
    match o.fixedfile.read with
    | Except.error f => Except.error f
    | Except.ok file =>
      let t1 := t ++ [Event.lib 152 (Call.readcopyparam file) S.readcopy]
      if S.readcopy ≠ 0 then
        Except.ok (Step.terminate
          { status := S.readcopy, env := true, held := noneHeld, trace := t1 })
      else
        let t2 := t1 ++ [Event.lib 159 (Call.getchgparam false 0) S.sizeStatus]
        let fcnt := toInt32 (-S.surplus)
        let t3 := t2 ++ mallocEvents S fcnt
        if anyNull S then
          Except.ok (Step.terminate
            { status := K.CPXERR_NO_MEMORY, env := true, held := S.mallocOk, trace := t3 })
        else
          let t4 := t3 ++ [Event.lib 178 (Call.getchgparam true fcnt) S.chgStatus]
          if sizeBytes fcnt 4 / 4 < S.changed.length then Except.error Fault.overrun
          else if S.chgStatus ≠ 0 then
            Except.ok (Step.terminate
              { status := S.chgStatus, env := true, held := S.mallocOk, trace := t4 })
          else
            let b := classifyLoop K S S.changed Buckets.init
            Except.ok (Step.next
              { held := S.mallocOk, icnt := b.icnt, dcnt := b.dcnt,
                inum := b.inum, ival := b.ival, dnum := b.dnum, dval := b.dval,
                trace := t4 ++ b.trace ++
                  [Event.lib 211 Call.setdefaults S.setdefaults,
                   Event.lib 212 (Call.setintparam K.CPXPARAM_ScreenOutput K.CPX_ON)
                     S.resetScreen] })
  else
    Except.ok (Step.next
      { held := noneHeld, icnt := 0, dcnt := 0, inum := Arr.fresh, ival := Arr.fresh,
        dnum := Arr.fresh, dval := Arr.fresh, trace := t })

/-- The event of line 217: the call of `CPXXtuneparamprobset`. -/
def tuneEvent (S : Script) (argv : List String) (o : Opts) (f : Fixed) : Event :=
  Event.lib 217
    (Call.tuneparamprobset (filecntOf argv o) (filenamesOf argv o)
      f.icnt (f.inum.firstN f.icnt) (f.ival.firstN f.icnt)
      f.dcnt (f.dnum.firstN f.dcnt) (f.dval.firstN f.dcnt) S.tunestat)
    S.tune

/-- Lines 215-242: tune, and write the tuned parameters when a file was named.
Every path of this part ends at `TERMINATE`. -/
def tunePhase (S : Script) (argv : List String) (o : Opts) (f : Fixed) :
    Except Fault AtTerminate :=
  let t1 := f.trace ++ [tuneEvent S argv o f]
  if S.tune ≠ 0 then
    Except.ok { status := S.tune, env := true, held := f.held, trace := t1 }
  else if S.tunestat ≠ 0 then
    Except.ok { status := S.tune, env := true, held := f.held, trace := t1 }
  else if o.tunedfile.nonEmpty then
    match o.tunedfile.read with
    | Except.error e => Except.error e
    | Except.ok file =>
      Except.ok
        { status := S.write, env := true, held := f.held,
          trace := t1 ++ [Event.lib 235 (Call.writeparam file) S.write] }
  else Except.ok { status := S.tune, env := true, held := f.held, trace := t1 }

/-- Lines 49-242: `main` up to the label `TERMINATE`.  `status0` is the
indeterminate content of the uninitialised variable `status`. -/
def body (K : CpxConst) (S : Script) (status0 : Int) (argv : List String) :
    Except Fault AtTerminate :=
  if argv.length < 2 then
    Except.ok { status := status0, env := false, held := noneHeld, trace := [Event.usage] }
  else
    match parseArgs K argv with
    | Except.error e => Except.error e
    | Except.ok o =>
      match openPhase K S o with
      | Except.error e => Except.error e
      | Except.ok (Step.terminate x) => Except.ok x
      | Except.ok (Step.next t) =>
        match fixedPhase K S o t with
        | Except.error e => Except.error e
        | Except.ok (Step.terminate x) => Except.ok x
        | Except.ok (Step.next f) => tunePhase S argv o f

/-- The five array pointers (null or not) and the trace, as the cleanup block
works on them. -/
structure Mem where
  held : Ptr → Bool
  trace : List Event

/-- Lines 280-287, `free_and_null (&p)`: a non-null pointer is freed and set
to null, a null pointer is left alone. -/
def free_and_null (m : Mem) (p : Ptr) : Mem :=
  if m.held p then
    { held := fun q => if q = p then false else m.held q,
      trace := m.trace ++ [Event.free p] }
  else m

/-- What `main` leaves behind. -/
structure Result where
  /-- The value `main` returns. -/
  status : Int
  /-- Which of the five array pointers are non-null on return. -/
  held : Ptr → Bool
  trace : List Event

/-- Lines 248-252: the five calls of `free_and_null`. -/
def freeAll (m : Mem) : Mem :=
  free_and_null (free_and_null (free_and_null (free_and_null (free_and_null m
    Ptr.fnum) Ptr.inum) Ptr.ival) Ptr.dnum) Ptr.dval

/-- Lines 244-272: the block at `TERMINATE`. -/
def terminate (S : Script) (x : AtTerminate) : Result :=
  let m := freeAll { held := x.held, trace := x.trace }
  if x.env then
    let t2 := m.trace ++ [Event.lib 257 Call.closeCPLEX S.close]
    if S.close ≠ 0 then
      { status := S.close, held := m.held,
        trace := t2 ++ [Event.lib 267 (Call.geterrorstring x.status) 0] }
    else { status := x.status, held := m.held, trace := t2 }
  else { status := x.status, held := m.held, trace := m.trace }

/-- The function `main` of xtuneset.c: the argument vector `argv` (of length
`argc`), run against the script `S`. -/
def main (K : CpxConst) (S : Script) (status0 : Int) (argv : List String) :
    Except Fault Result :=
  match body K S status0 argv with
  | Except.error e => Except.error e
  | Except.ok x => Except.ok (terminate S x)

/-- A script in which every call whose status `main` tests succeeds.  The
fixed-parameter file changes the parameters `changed`: the sizing call of line
159 returns 1207, the status for a buffer that is too small, with
`surplus = -changed.length`; the parameter of iteration `i` has the type
`types i`, and every value queried is `value`. -/
def okScript (changed : List Int) (types : Nat → Int) (value : Int) : Script where
  openEnv := true
  openStatus := 0
  setScreen := 0
  setMeasure := 0
  readcopy := 0
  sizeStatus := 1207
  surplus := -(changed.length : Int)
  mallocOk := fun _ => true
  chgStatus := 0
  changed := changed
  ptype := fun i => (0, types i)
  getint := fun _ => (0, value)
  getlong := fun _ => (0, value)
  getdbl := fun _ => (0, CDouble.mk value.toNat)
  setdefaults := 0
  resetScreen := 0
  tune := 0
  tunestat := 0
  write := 0
  close := 0

/-! ## The documented command line -/

/-- An option of the usage text. -/
inductive Opt
  /-- `-a`. -/
  | a
  /-- `-m`. -/
  | m
  /-- `-f file`. -/
  | f (file : String)
  /-- `-o file`. -/
  | o (file : String)
  deriving DecidableEq, Repr

/-- The arguments that spell an option. -/
def Opt.render : Opt → List String
  | Opt.a => ["-a"]
  | Opt.m => ["-m"]
  | Opt.f file => ["-f", file]
  | Opt.o file => ["-o", file]

/-- The arguments that spell a block of options. -/
def renderOpts : List Opt → List String
  | [] => []
  | x :: rest => x.render ++ renderOpts rest

/-- The argument vector `progname options file1 ... filen`. -/
def commandLine (progname : String) (opts : List Opt) (files : List String) : List String :=
  progname :: (renderOpts opts ++ files)

/-- The file of a `-f` option. -/
def Opt.fixedArg : Opt → Option String
  | Opt.f file => some file
  | _ => none

/-- The file of a `-o` option. -/
def Opt.tunedArg : Opt → Option String
  | Opt.o file => some file
  | _ => none

/-- The measure a `-a` or `-m` option selects. -/
def Opt.measure (K : CpxConst) : Opt → Option Int
  | Opt.a => some K.CPX_TUNE_AVERAGE
  | Opt.m => some K.CPX_TUNE_MINMAX
  | _ => none

/-- The argument after the last `-f`, the empty string if there is no `-f`. -/
def lastFixed (opts : List Opt) : String :=
  ((opts.filterMap Opt.fixedArg).getLast?).getD ""

/-- The argument after the last `-o`, the empty string if there is no `-o`. -/
def lastTuned (opts : List Opt) : String :=
  ((opts.filterMap Opt.tunedArg).getLast?).getD ""

/-- The measure of the last `-a` or `-m`, if there is one. -/
def lastMeasure (K : CpxConst) (opts : List Opt) : Option Int :=
  (opts.filterMap (Opt.measure K)).getLast?

/-- The file arguments of the options are shorter than `BUFSZ`. -/
def OptsFit (opts : List Opt) : Prop :=
  (∀ s ∈ opts.filterMap Opt.fixedArg, s.length < BUFSZ) ∧
  (∀ s ∈ opts.filterMap Opt.tunedArg, s.length < BUFSZ)

/-- No problem file name starts with `-`. -/
def NoDash (files : List String) : Prop :=
  ∀ s ∈ files, charAt s 0 ≠ '-'

/-- The effect of one option on the variables of the option loop. -/
def applyOpt (K : CpxConst) (st : Opts) : Opt → Opts
  | Opt.a => { st with tunemeasure := some K.CPX_TUNE_AVERAGE, mset := true, i := st.i + 1 }
  | Opt.m => { st with tunemeasure := some K.CPX_TUNE_MINMAX, mset := true, i := st.i + 1 }
  | Opt.f file => { st with fixedfile := strncpy file, i := st.i + 2 }
  | Opt.o file => { st with tunedfile := strncpy file, i := st.i + 2 }

/-- The file count and the file names of a call of `CPXXtuneparamprobset`. -/
def Event.tuneFiles : Event → Option (Int × List String)
  | Event.lib _ (Call.tuneparamprobset filecnt filenames _ _ _ _ _ _ _) _ =>
    some (filecnt, filenames)
  | _ => none

/-- The event is a call made by the classification loop (lines 183-206). -/
def Event.isLoopCall : Event → Bool
  | Event.lib line (Call.getparamtype _) _ => decide (line = 183)
  | Event.lib line (Call.getintparam _) _ => decide (line = 186)
  | Event.lib line (Call.getlongparam _) _ => decide (line = 192)
  | Event.lib line (Call.getdblparam _) _ => decide (line = 206)
  | _ => false

/-- The events of lines 152-159: reading the fixed-parameter file `file` and
the sizing call. -/
def readEvents (S : Script) (file : String) : List Event :=
  [Event.lib 152 (Call.readcopyparam file) S.readcopy,
   Event.lib 159 (Call.getchgparam false 0) S.sizeStatus]

/-- The event of line 178. -/
def chgEvent (S : Script) : Event :=
  Event.lib 178 (Call.getchgparam true (toInt32 (-S.surplus))) S.chgStatus

/-- The events of lines 211-212. -/
def resetEvents (K : CpxConst) (S : Script) : List Event :=
  [Event.lib 211 Call.setdefaults S.setdefaults,
   Event.lib 212 (Call.setintparam K.CPXPARAM_ScreenOutput K.CPX_ON) S.resetScreen]

/-- What lines 149-213 hand on when every checked call of them succeeds, for
the fixed-parameter file `file` and the trace `t` so far. -/
def fixedDone (K : CpxConst) (S : Script) (file : String) (t : List Event) : Fixed :=
  { held := S.mallocOk,
    icnt := (classifyLoop K S S.changed Buckets.init).icnt,
    dcnt := (classifyLoop K S S.changed Buckets.init).dcnt,
    inum := (classifyLoop K S S.changed Buckets.init).inum,
    ival := (classifyLoop K S S.changed Buckets.init).ival,
    dnum := (classifyLoop K S S.changed Buckets.init).dnum,
    dval := (classifyLoop K S S.changed Buckets.init).dval,
    trace := t ++ readEvents S file ++ mallocEvents S (toInt32 (-S.surplus)) ++ [chgEvent S] ++
      (classifyLoop K S S.changed Buckets.init).trace ++ resetEvents K S }

/-- What lines 149-213 hand on when no fixed-parameter file was given. -/
def fixedNone (t : List Event) : Fixed :=
  { held := noneHeld, icnt := 0, dcnt := 0, inum := Arr.fresh, ival := Arr.fresh,
    dnum := Arr.fresh, dval := Arr.fresh, trace := t }

/-- The events of lines 248-252 when the pointers `held` are non-null. -/
def freeEvents (held : Ptr → Bool) : List Event :=
  ([Ptr.fnum, Ptr.inum, Ptr.ival, Ptr.dnum, Ptr.dval].filter held).map Event.free

/-- The events of lines 256-271. -/
def closeEvents (S : Script) (x : AtTerminate) : List Event :=
  if x.env then
    if S.close ≠ 0 then
      [Event.lib 257 Call.closeCPLEX S.close, Event.lib 267 (Call.geterrorstring x.status) 0]
    else [Event.lib 257 Call.closeCPLEX S.close]
  else []

/-- What a run of `main` shows to the outside: the value returned and the
trace, or the fault. -/
def observe (K : CpxConst) (S : Script) (status0 : Int) (argv : List String) :
    Except Fault (Int × List Event) :=
  match main K S status0 argv with
  | Except.error e => Except.error e
  | Except.ok r => Except.ok (r.status, r.trace)

/-! ## The classification loop: invariant and contents of the lists -/

/-- The invariant of the classification loop at the start of iteration `n`. -/
def LoopInv (n : Nat) (b : Buckets) : Prop :=
  b.i = n ∧ 0 ≤ b.icnt ∧ 0 ≤ b.dcnt ∧ b.icnt + b.dcnt ≤ (n : Int) ∧
  ∀ w ∈ b.writes, 0 ≤ w.2 ∧ w.2 < (n : Int)

/-- The parameter at iteration `i` goes to the integer list: its type is INT
or LONG. -/
def intLike (K : CpxConst) (S : Script) (i : Nat) : Bool :=
  decide ((S.ptype i).2 = K.CPX_PARAMTYPE_INT ∨ (S.ptype i).2 = K.CPX_PARAMTYPE_LONG)

/-- The parameter at iteration `i` goes to the double list: its type is
DOUBLE. -/
def dblLike (K : CpxConst) (S : Script) (i : Nat) : Bool :=
  decide ((S.ptype i).2 = K.CPX_PARAMTYPE_DOUBLE)

/-- The entries of `fnum`, with their index, whose type is INT or LONG. -/
def intEntries (K : CpxConst) (S : Script) (fnum : List Int) : List (Nat × Int) :=
  fnum.enum.filter (fun e => intLike K S e.1)

/-- The entries of `fnum`, with their index, whose type is DOUBLE. -/
def dblEntries (K : CpxConst) (S : Script) (fnum : List Int) : List (Nat × Int) :=
  fnum.enum.filter (fun e => dblLike K S e.1)

/-- The value queried for the integer-list parameter of iteration `i`: the
`int` value of an INT parameter, the clamped value of a LONG parameter. -/
def intValue (K : CpxConst) (S : Script) (i : Nat) : Int :=
  if (S.ptype i).2 = K.CPX_PARAMTYPE_INT then (S.getint i).2 else storedLong (S.getlong i).2

/-- The buckets hold the lists `A`, `B` (integer parameters and values) and
`C`, `D` (double parameters and values). -/
def Holds (b : Buckets) (A B C : List (Option Int)) (D : List (Option CDouble)) : Prop :=
  b.icnt = (A.length : Int) ∧ b.dcnt = (C.length : Int) ∧
  b.inum.firstN b.icnt = A ∧ b.ival.firstN b.icnt = B ∧
  b.dnum.firstN b.dcnt = C ∧ b.dval.firstN b.dcnt = D ∧
  A.length = B.length ∧ C.length = D.length

/-! ## Reading the trace -/

/-- The pointer a call of `free` releases. -/
def Event.freed : Event → Option Ptr
  | Event.free p => some p
  | _ => none

/-- The pointer a successful call of `malloc` was assigned to. -/
def Event.allocated : Event → Option Ptr
  | Event.malloc p _ ok => if ok then some p else none
  | _ => none

/-- The event is a call of `CPXXopenCPLEX` that returned a handle. -/
def Event.isOpen : Event → Bool
  | Event.lib _ (Call.openCPLEX true) _ => true
  | _ => false

/-- The event is a call of `CPXXcloseCPLEX`. -/
def Event.isClose : Event → Bool
  | Event.lib _ Call.closeCPLEX _ => true
  | _ => false

/-- The five array pointers, in the order of lines 248-252. -/
def allPtrs : List Ptr := [Ptr.fnum, Ptr.inum, Ptr.ival, Ptr.dnum, Ptr.dval]

/-! ## Failing calls -/

/-- The source lines of the calls whose status `main` tests: lines 130, 138,
152, 178, 217, 235 and, in the cleanup block, 257. -/
def checkedLines : List Nat := [130, 138, 152, 178, 217, 235, 257]

/-- The status of a call that `main` treats as failed: `CPXXopenCPLEX`
returning no handle (the status is what it stored), or a call at one of the
`checkedLines` returning a non-zero status. -/
def Event.failure : Event → Option Int
  | Event.lib line c st =>
    if line = 113 then
      match c with
      | Call.openCPLEX false => some st
      | _ => none
    else if line ∈ checkedLines ∧ st ≠ 0 then some st
    else none
  | _ => none

/-- The event belongs to cleanup and error reporting: `free`,
`CPXXcloseCPLEX`, `CPXXgeterrorstring`. -/
def Event.isCleanup : Event → Bool
  | Event.free _ => true
  | Event.lib _ Call.closeCPLEX _ => true
  | Event.lib _ (Call.geterrorstring _) _ => true
  | _ => false

/-- The event is a call of `malloc` that returned the null pointer. -/
def Event.allocFailure : Event → Bool
  | Event.malloc _ _ ok => !ok
  | _ => false

/-- Some call of `malloc` in the trace returned the null pointer. -/
def allocFailed (trace : List Event) : Bool :=
  trace.any Event.allocFailure

/-- The status of the first failed call of the trace, and the events after
that call. -/
def afterFailure : List Event → Option (Int × List Event)
  | [] => none
  | e :: rest =>
    match e.failure with
    | some st => some (st, rest)
    | none => afterFailure rest

/-- The exit status as the trace determines it: the status of the last failed
call; without a failed call, `CPXERR_NO_MEMORY` if an allocation failed and 0
otherwise. -/
def exitSpec (K : CpxConst) (trace : List Event) : Int :=
  match (trace.filterMap Event.failure).getLast? with
  | some st => st
  | none => if allocFailed trace then K.CPXERR_NO_MEMORY else 0

/-- The run stays within defined behaviour after the option loop: both file
buffers hold terminated strings, and, when a fixed-parameter file is read, the
library stores no more parameter numbers than `fnum` holds. -/
def StaysDefined (S : Script) (o : Opts) : Prop :=
  (∃ s, o.fixedfile = CBuf.terminated s) ∧ (∃ s, o.tunedfile = CBuf.terminated s) ∧
  (o.fixedfile.nonEmpty = true → S.changed.length ≤ sizeBytes (toInt32 (-S.surplus)) 4 / 4)

/-! ## Scripts of particular runs -/

/-- Every call succeeds, except that `CPXXsetdefaults` (line 211) returns the
status 1013; the fixed-parameter file changes no parameter. -/
def uncheckedFailScript : Script :=
  { okScript [] (fun _ => 0) 0 with setdefaults := 1013 }

/-- Every library call succeeds; the last call of `malloc`, for `dval`,
returns the null pointer. -/
def noMemScript : Script :=
  { okScript [1035] (fun _ => 1) 1 with mallocOk := fun p => decide (p ≠ Ptr.dval) }

/-- Every call succeeds, except that `CPXXgetparamtype` (line 183) returns the
status 1013, leaving 1 in `itype`. -/
def typeQueryFailScript : Script :=
  { okScript [1035] (fun _ => 1) 1 with ptype := fun _ => (1013, 1) }

/-- The fixed-parameter file cannot be read: `CPXXreadcopyparam` returns 1423;
closing the environment fails as well, with 1002. -/
def readFailScript : Script :=
  { okScript [] (fun _ => 0) 0 with readcopy := 1423, close := 1002 }

/-- Tuning returns status 0 and reports `tunestat = 1`. -/
def incompleteScript : Script :=
  { okScript [] (fun _ => 0) 0 with tunestat := 1 }

/-! ## Writing the tuned parameters -/

/-- The file a call of `CPXXwriteparam` is given. -/
def Event.written : Event → Option String
  | Event.lib _ (Call.writeparam file) _ => some file
  | _ => none

/-- The status and the `tunestat` of a call of `CPXXtuneparamprobset`. -/
def Event.tuned : Event → Option (Int × Int)
  | Event.lib _ (Call.tuneparamprobset _ _ _ _ _ _ _ _ tunestat) st => some (st, tunestat)
  | _ => none

/-- Every checked call before the tuning call returned 0: `CPXXopenCPLEX`
returned a handle, and the calls of lines 130, 138 (made when `-a` or `-m` was
given), 152 and 178 (made when a fixed-parameter file was given) returned 0. -/
def EarlierOk (S : Script) (o : Opts) : Prop :=
  S.openEnv = true ∧ S.setScreen = 0 ∧ (o.mset = true → S.setMeasure = 0) ∧
  (o.fixedfile.nonEmpty = true → S.readcopy = 0 ∧ S.chgStatus = 0)

/-! ## The parameters of the environment -/

/-- A model of the parameter store of a CPLEX environment, as far as `main`
acts on it: storing an integer parameter (`CPXXsetintparam`), loading a
parameter file (`CPXXreadcopyparam`), restoring the defaults
(`CPXXsetdefaults`), and reading an integer parameter. -/
structure Registry (ρ : Type) where
  setint : ρ → Int → Int → ρ
  readcopy : ρ → String → ρ
  defaults : ρ → ρ
  getint : ρ → Int → Int

/-- The store after an event: a successful call of `CPXXsetintparam`,
`CPXXreadcopyparam` or `CPXXsetdefaults` acts on it, every other event leaves
it as it is. -/
def Registry.step {ρ : Type} (R : Registry ρ) (s : ρ) : Event → ρ
  | Event.lib _ (Call.setintparam whichparam value) st =>
    if st = 0 then R.setint s whichparam value else s
  | Event.lib _ (Call.readcopyparam file) st => if st = 0 then R.readcopy s file else s
  | Event.lib _ Call.setdefaults st => if st = 0 then R.defaults s else s
  | _ => s

/-- The store after the events of a trace. -/
def Registry.replay {ρ : Type} (R : Registry ρ) (s : ρ) (trace : List Event) : ρ :=
  trace.foldl R.step s

/-- The store at the moment `CPXXtuneparamprobset` is first called, if it is
called. -/
def Registry.atTune {ρ : Type} (R : Registry ρ) : ρ → List Event → Option ρ
  | _, [] => none
  | s, e :: rest =>
    match e.tuned with
    | some _ => some s
    | none => Registry.atTune R (R.step s e) rest

/-- The store was reset: it is what `CPXXsetdefaults` left, with the screen
output turned on again. -/
def Registry.IsReset {ρ : Type} (R : Registry ρ) (K : CpxConst) (s : ρ) : Prop :=
  ∃ s1, s = R.setint (R.defaults s1) K.CPXPARAM_ScreenOutput K.CPX_ON

/-- The value of a call of `CPXXsetintparam` on `CPXPARAM_Tune_Measure`. -/
def Event.measureSet (K : CpxConst) : Event → Option Int
  | Event.lib _ (Call.setintparam whichparam value) _ =>
    if whichparam = K.CPXPARAM_Tune_Measure then some value else none
  | _ => none

/-- A store that is a table of integer parameters: `CPXXsetintparam` updates
an entry, `CPXXsetdefaults` restores the table `dflt`, and the parameter file
read changes nothing. -/
def tableRegistry (dflt : Int → Int) : Registry (Int → Int) where
  setint := fun s whichparam value => fun w => if w = whichparam then value else s w
  readcopy := fun s _ => s
  defaults := fun _ => dflt
  getint := fun s w => s w

/-- The defaults of CPLEX 12.6.1 for the parameters `main` sets: the tuning
measure 1110 is `CPX_TUNE_AVERAGE` (1), the screen output 1035 is off (0). -/
def cplexDefaults : Int → Int :=
  fun w => if w = 1110 then 1 else 0

/-- The value of the tuning-measure parameter, in the table store, at the
moment `CPXXtuneparamprobset` is called in the observed run. -/
def measureAtTune (obs : Except Fault (Int × List Event)) : Option Int :=
  match obs with
  | Except.ok (_, trace) =>
    ((tableRegistry cplexDefaults).atTune cplexDefaults trace).map (fun s => s 1110)
  | Except.error _ => none

/-! ## Theorems -/

/-! ### The option loop -/

theorem parseLoop_done (K : CpxConst) (argv : List String) (fuel : Nat) (st : Opts)
    (h : argv.length ≤ st.i) : parseLoop K argv fuel st = Except.ok st := by
  cases fuel <;> simp [parseLoop, Nat.not_lt.mpr h]

theorem parseLoop_at (K : CpxConst) (argv : List String) (fuel : Nat) (st : Opts) (a : String)
    (ha : argv.get? st.i = some a) :
    parseLoop K argv (fuel + 1) st =
      if charAt a 0 ≠ '-' then Except.ok st
      else if charAt a 1 = 'a' then
        parseLoop K argv fuel
          { st with tunemeasure := some K.CPX_TUNE_AVERAGE, mset := true, i := st.i + 1 }
      else if charAt a 1 = 'm' then
        parseLoop K argv fuel
          { st with tunemeasure := some K.CPX_TUNE_MINMAX, mset := true, i := st.i + 1 }
      else if charAt a 1 = 'f' then
        match argv.get? (st.i + 1) with
        | none => Except.error (Fault.nullArg (st.i + 1))
        | some b => parseLoop K argv fuel { st with fixedfile := strncpy b, i := st.i + 2 }
      else if charAt a 1 = 'o' then
        match argv.get? (st.i + 1) with
        | none => Except.error (Fault.nullArg (st.i + 1))
        | some b => parseLoop K argv fuel { st with tunedfile := strncpy b, i := st.i + 2 }
      else parseLoop K argv fuel { st with i := st.i + 1 } := by
  obtain ⟨h, hget⟩ := List.get?_eq_some.mp ha
  rw [parseLoop]
  simp only [h, dite_true]
  have : argv.get ⟨st.i, h⟩ = a := hget
  simp only [this]

theorem get?_append_at (pre : List String) (x : String) (tail : List String) :
    (pre ++ x :: tail).get? pre.length = some x := by
  rw [List.get?_eq_getElem?, List.getElem?_append_right (le_refl _)]
  simp

theorem get?_append_at_succ (pre : List String) (x y : String) (tail : List String) :
    (pre ++ x :: y :: tail).get? (pre.length + 1) = some y := by
  have h := get?_append_at (pre ++ [x]) y tail
  simpa using h

theorem parseLoop_opts (K : CpxConst) (opts : List Opt) :
    ∀ (pre files : List String) (st : Opts) (fuel : Nat),
      st.i = pre.length → NoDash files → opts.length + 1 ≤ fuel →
      parseLoop K (pre ++ (renderOpts opts ++ files)) fuel st =
        Except.ok (opts.foldl (applyOpt K) st) := by
  induction opts with
  | nil =>
    intro pre files st fuel hi hnd hfuel
    obtain ⟨fuel, rfl⟩ : ∃ k, fuel = k + 1 := ⟨fuel - 1, by omega⟩
    cases files with
    | nil => exact parseLoop_done K _ _ st (by simp [renderOpts, hi])
    | cons f fs =>
      have hget : (pre ++ (renderOpts [] ++ f :: fs)).get? st.i = some f := by
        rw [hi]; simpa [renderOpts] using get?_append_at pre f fs
      rw [parseLoop_at K _ fuel st f hget]
      have : charAt f 0 ≠ '-' := hnd f (by simp)
      simp [this]
  | cons x rest ih =>
    intro pre files st fuel hi hnd hfuel
    obtain ⟨fuel, rfl⟩ : ∃ k, fuel = k + 1 := ⟨fuel - 1, by simp at hfuel; omega⟩
    have hfuel2 : rest.length + 1 ≤ fuel := by simp at hfuel; omega
    cases x with
    | a =>
      have hget : (pre ++ (renderOpts (Opt.a :: rest) ++ files)).get? st.i = some "-a" := by
        rw [hi]; simpa [renderOpts, Opt.render] using get?_append_at pre "-a" _
      rw [parseLoop_at K _ fuel st "-a" hget]
      have e : pre ++ (renderOpts (Opt.a :: rest) ++ files) =
          (pre ++ ["-a"]) ++ (renderOpts rest ++ files) := by
        simp [renderOpts, Opt.render]
      have h0 : (charAt "-a" 0 = '-') = True := eq_true (by decide)
      have h1 : (charAt "-a" 1 = 'a') = True := eq_true (by decide)
      simp only [h0, h1, ne_eq, not_true_eq_false, if_false, if_true]
      rw [e, ih (pre ++ ["-a"]) files _ fuel (by simp [hi]) hnd hfuel2]
      rfl
    | m =>
      have hget : (pre ++ (renderOpts (Opt.m :: rest) ++ files)).get? st.i = some "-m" := by
        rw [hi]; simpa [renderOpts, Opt.render] using get?_append_at pre "-m" _
      rw [parseLoop_at K _ fuel st "-m" hget]
      have e : pre ++ (renderOpts (Opt.m :: rest) ++ files) =
          (pre ++ ["-m"]) ++ (renderOpts rest ++ files) := by
        simp [renderOpts, Opt.render]
      have h0 : (charAt "-m" 0 = '-') = True := eq_true (by decide)
      have h2 : (charAt "-m" 1 = 'a') = False := eq_false (by decide)
      have h1 : (charAt "-m" 1 = 'm') = True := eq_true (by decide)
      simp only [h0, h2, h1, ne_eq, not_true_eq_false, if_false, if_true]
      rw [e, ih (pre ++ ["-m"]) files _ fuel (by simp [hi]) hnd hfuel2]
      rfl
    | f file =>
      have hget : (pre ++ (renderOpts (Opt.f file :: rest) ++ files)).get? st.i = some "-f" := by
        rw [hi]; simpa [renderOpts, Opt.render] using get?_append_at pre "-f" _
      have hget2 : (pre ++ (renderOpts (Opt.f file :: rest) ++ files)).get? (st.i + 1) =
          some file := by
        rw [hi]; simpa [renderOpts, Opt.render] using get?_append_at_succ pre "-f" file _
      rw [parseLoop_at K _ fuel st "-f" hget]
      have e : pre ++ (renderOpts (Opt.f file :: rest) ++ files) =
          (pre ++ ["-f", file]) ++ (renderOpts rest ++ files) := by
        simp [renderOpts, Opt.render]
      have h0 : (charAt "-f" 0 = '-') = True := eq_true (by decide)
      have h2 : (charAt "-f" 1 = 'a') = False := eq_false (by decide)
      have h3 : (charAt "-f" 1 = 'm') = False := eq_false (by decide)
      have h1 : (charAt "-f" 1 = 'f') = True := eq_true (by decide)
      simp only [h0, h2, h3, h1, hget2, ne_eq, not_true_eq_false, if_false, if_true]
      rw [e, ih (pre ++ ["-f", file]) files _ fuel (by simp [hi]) hnd hfuel2]
      rfl
    | o file =>
      have hget : (pre ++ (renderOpts (Opt.o file :: rest) ++ files)).get? st.i = some "-o" := by
        rw [hi]; simpa [renderOpts, Opt.render] using get?_append_at pre "-o" _
      have hget2 : (pre ++ (renderOpts (Opt.o file :: rest) ++ files)).get? (st.i + 1) =
          some file := by
        rw [hi]; simpa [renderOpts, Opt.render] using get?_append_at_succ pre "-o" file _
      rw [parseLoop_at K _ fuel st "-o" hget]
      have e : pre ++ (renderOpts (Opt.o file :: rest) ++ files) =
          (pre ++ ["-o", file]) ++ (renderOpts rest ++ files) := by
        simp [renderOpts, Opt.render]
      have h0 : (charAt "-o" 0 = '-') = True := eq_true (by decide)
      have h2 : (charAt "-o" 1 = 'a') = False := eq_false (by decide)
      have h3 : (charAt "-o" 1 = 'm') = False := eq_false (by decide)
      have h4 : (charAt "-o" 1 = 'f') = False := eq_false (by decide)
      have h1 : (charAt "-o" 1 = 'o') = True := eq_true (by decide)
      simp only [h0, h2, h3, h4, h1, hget2, ne_eq, not_true_eq_false, if_false, if_true]
      rw [e, ih (pre ++ ["-o", file]) files _ fuel (by simp [hi]) hnd hfuel2]
      rfl

theorem foldl_applyOpt_i (K : CpxConst) (opts : List Opt) :
    ∀ st : Opts, (opts.foldl (applyOpt K) st).i = st.i + (renderOpts opts).length := by
  induction opts with
  | nil => intro st; simp [renderOpts]
  | cons x rest ih =>
    intro st
    rw [List.foldl_cons, ih]
    cases x <;> simp [applyOpt, renderOpts, Opt.render] <;> omega

theorem foldl_applyOpt_fixed (K : CpxConst) (opts : List Opt) (st : Opts) :
    (opts.foldl (applyOpt K) st).fixedfile =
      match (opts.filterMap Opt.fixedArg).getLast? with
      | some s => strncpy s
      | none => st.fixedfile := by
  induction opts using List.reverseRecOn with
  | nil => simp
  | append_singleton l x ih =>
    rw [List.foldl_append, List.filterMap_append]
    cases x <;> simp [applyOpt, Opt.fixedArg, List.getLast?_append, ih]

theorem foldl_applyOpt_tuned (K : CpxConst) (opts : List Opt) (st : Opts) :
    (opts.foldl (applyOpt K) st).tunedfile =
      match (opts.filterMap Opt.tunedArg).getLast? with
      | some s => strncpy s
      | none => st.tunedfile := by
  induction opts using List.reverseRecOn with
  | nil => simp
  | append_singleton l x ih =>
    rw [List.foldl_append, List.filterMap_append]
    cases x <;> simp [applyOpt, Opt.tunedArg, List.getLast?_append, ih]

theorem foldl_applyOpt_measure (K : CpxConst) (opts : List Opt) (st : Opts) :
    (opts.foldl (applyOpt K) st).tunemeasure =
      match lastMeasure K opts with
      | some v => some v
      | none => st.tunemeasure := by
  unfold lastMeasure
  induction opts using List.reverseRecOn with
  | nil => simp
  | append_singleton l x ih =>
    rw [List.foldl_append, List.filterMap_append]
    cases x <;> simp [applyOpt, Opt.measure, List.getLast?_append, ih]

theorem foldl_applyOpt_mset (K : CpxConst) (opts : List Opt) (st : Opts) :
    (opts.foldl (applyOpt K) st).mset = (st.mset || (lastMeasure K opts).isSome) := by
  unfold lastMeasure
  induction opts using List.reverseRecOn with
  | nil => simp
  | append_singleton l x ih =>
    rw [List.foldl_append, List.filterMap_append]
    cases x <;> simp [applyOpt, Opt.measure, List.getLast?_append, ih]

theorem renderOpts_length (opts : List Opt) : opts.length ≤ (renderOpts opts).length := by
  induction opts with
  | nil => simp
  | cons x rest ih => cases x <;> simp [renderOpts, Opt.render] <;> omega

theorem parseArgs_commandLine (K : CpxConst) (progname : String) (opts : List Opt)
    (files : List String) (hnd : NoDash files) :
    parseArgs K (commandLine progname opts files) =
      Except.ok (opts.foldl (applyOpt K) Opts.init) := by
  have h := parseLoop_opts K opts [progname] files Opts.init
    (commandLine progname opts files).length rfl hnd
    (by have := renderOpts_length opts; simp [commandLine]; omega)
  simpa [parseArgs, commandLine] using h

theorem parseLoop_bounds (K : CpxConst) (argv : List String) :
    ∀ (fuel : Nat) (st o : Opts), 1 ≤ st.i → argv.length ≤ st.i + fuel →
      (parseLoop K argv fuel st ≠ Except.error Fault.fuel) ∧
      (parseLoop K argv fuel st = Except.ok o → st.i ≤ argv.length →
        1 ≤ o.i ∧ o.i ≤ argv.length) := by
  intro fuel
  induction fuel with
  | zero =>
    intro st o h1 hf
    have : ¬ st.i < argv.length := by omega
    simp only [parseLoop, this, if_false]
    refine ⟨by simp, ?_⟩
    intro h hle
    cases h
    exact ⟨h1, hle⟩
  | succ fuel ih =>
    intro st o h1 hf
    by_cases hi : st.i < argv.length
    · have hget : argv.get? st.i = some (argv.get ⟨st.i, hi⟩) := List.get?_eq_get hi
      rw [parseLoop_at K argv fuel st _ hget]
      split_ifs
      · exact ⟨by simp, fun h hle => by cases h; exact ⟨h1, hle⟩⟩
      · have := ih { st with tunemeasure := some K.CPX_TUNE_AVERAGE, mset := true, i := st.i + 1 }
          o (by simp) (by simp; omega)
        exact ⟨this.1, fun h _ => this.2 h (by simp; omega)⟩
      · have := ih { st with tunemeasure := some K.CPX_TUNE_MINMAX, mset := true, i := st.i + 1 }
          o (by simp) (by simp; omega)
        exact ⟨this.1, fun h _ => this.2 h (by simp; omega)⟩
      · cases hg : argv.get? (st.i + 1) with
        | none => simp [← List.get?_eq_getElem?, hg]
        | some b =>
          have hlt : st.i + 1 < argv.length := (List.get?_eq_some.mp hg).1
          have := ih { st with fixedfile := strncpy b, i := st.i + 2 } o (by simp)
            (by simp; omega)
          simp only [← List.get?_eq_getElem?, hg]
          exact ⟨this.1, fun h _ => this.2 h (by simp; omega)⟩
      · cases hg : argv.get? (st.i + 1) with
        | none => simp [← List.get?_eq_getElem?, hg]
        | some b =>
          have hlt : st.i + 1 < argv.length := (List.get?_eq_some.mp hg).1
          have := ih { st with tunedfile := strncpy b, i := st.i + 2 } o (by simp)
            (by simp; omega)
          simp only [← List.get?_eq_getElem?, hg]
          exact ⟨this.1, fun h _ => this.2 h (by simp; omega)⟩
      · have := ih { st with i := st.i + 1 } o (by simp) (by simp; omega)
        exact ⟨this.1, fun h _ => this.2 h (by simp; omega)⟩
    · rw [parseLoop_done K argv _ st (Nat.le_of_not_lt hi)]
      exact ⟨by simp, fun h hle => by cases h; exact ⟨h1, hle⟩⟩

/-- The option loop of `main` never exhausts the iteration bound of the model;
when it ends within defined behaviour for `argc ≥ 1`, the index satisfies
`1 ≤ i ≤ argc`, so that `0 ≤ filecnt ≤ argc - 1`. -/
theorem parseArgs_bounds (K : CpxConst) (argv : List String) (o : Opts) :
    parseArgs K argv ≠ Except.error Fault.fuel ∧
    (parseArgs K argv = Except.ok o → 1 ≤ argv.length →
      1 ≤ o.i ∧ o.i ≤ argv.length ∧ 0 ≤ filecntOf argv o ∧
      filecntOf argv o ≤ (argv.length : Int) - 1) := by
  have h := parseLoop_bounds K argv argv.length Opts.init o (by simp [Opts.init])
    (by simp [Opts.init])
  refine ⟨h.1, fun hp hlen => ?_⟩
  have hb := h.2 hp (by simpa [Opts.init] using hlen)
  refine ⟨hb.1, hb.2, ?_, ?_⟩ <;> unfold filecntOf <;> omega

/-- The run without arguments: `main` returns the content the variable
`status` happens to have, after calling `usage` and nothing else. -/
theorem usage_exit (K : CpxConst) (S : Script) (status0 : Int) (progname : String) :
    observe K S status0 [progname] = Except.ok (status0, [Event.usage]) := by
  simp [observe, main, body, terminate, freeAll, free_and_null, noneHeld]

/-! ### The cleanup block -/

theorem freeAll_trace (m : Mem) : (freeAll m).trace = m.trace ++ freeEvents m.held := by
  obtain ⟨held, trace⟩ := m
  simp only [freeAll, free_and_null, freeEvents]
  cases h1 : held Ptr.fnum <;> cases h2 : held Ptr.inum <;> cases h3 : held Ptr.ival <;>
    cases h4 : held Ptr.dnum <;> cases h5 : held Ptr.dval <;>
    simp [h1, h2, h3, h4, h5, List.filter]

theorem freeAll_held (m : Mem) (p : Ptr) : (freeAll m).held p = false := by
  obtain ⟨held, trace⟩ := m
  simp only [freeAll, free_and_null]
  cases h1 : held Ptr.fnum <;> cases h2 : held Ptr.inum <;> cases h3 : held Ptr.ival <;>
    cases h4 : held Ptr.dnum <;> cases h5 : held Ptr.dval <;>
    cases p <;> simp [h1, h2, h3, h4, h5]

theorem terminate_trace (S : Script) (x : AtTerminate) :
    (terminate S x).trace = x.trace ++ freeEvents x.held ++ closeEvents S x := by
  simp only [terminate, closeEvents]
  split_ifs <;> simp [freeAll_trace]

theorem terminate_status (S : Script) (x : AtTerminate) :
    (terminate S x).status = if x.env = true ∧ S.close ≠ 0 then S.close else x.status := by
  simp only [terminate]
  split_ifs <;> simp_all

theorem terminate_held (S : Script) (x : AtTerminate) (p : Ptr) :
    (terminate S x).held p = false := by
  simp only [terminate]
  split_ifs <;> simp [freeAll_held]

/-! ### The classification loop -/

theorem classifyStep_trace (K : CpxConst) (S : Script) (p : Int) (b : Buckets) :
    ∃ t, (classifyStep K S p b).trace = b.trace ++ t ∧ ∀ e ∈ t, e.isLoopCall = true := by
  unfold classifyStep
  simp only
  split_ifs
  · exact ⟨[Event.lib 183 (Call.getparamtype p) (S.ptype b.i).1,
      Event.lib 186 (Call.getintparam p) (S.getint b.i).1], by simp, by simp [Event.isLoopCall]⟩
  · exact ⟨[Event.lib 183 (Call.getparamtype p) (S.ptype b.i).1,
      Event.lib 192 (Call.getlongparam p) (S.getlong b.i).1], by simp, by simp [Event.isLoopCall]⟩
  · exact ⟨[Event.lib 183 (Call.getparamtype p) (S.ptype b.i).1,
      Event.lib 206 (Call.getdblparam p) (S.getdbl b.i).1], by simp, by simp [Event.isLoopCall]⟩
  · exact ⟨[Event.lib 183 (Call.getparamtype p) (S.ptype b.i).1], by simp,
      by simp [Event.isLoopCall]⟩

theorem classifyLoop_trace (K : CpxConst) (S : Script) (l : List Int) :
    ∀ b : Buckets, ∃ t, (classifyLoop K S l b).trace = b.trace ++ t ∧
      ∀ e ∈ t, e.isLoopCall = true := by
  induction l with
  | nil => intro b; exact ⟨[], by simp [classifyLoop], by simp⟩
  | cons p rest ih =>
    intro b
    obtain ⟨t1, h1, h1'⟩ := classifyStep_trace K S p b
    obtain ⟨t2, h2, h2'⟩ := ih (classifyStep K S p b)
    refine ⟨t1 ++ t2, ?_, ?_⟩
    · rw [classifyLoop, h2, h1, List.append_assoc]
    · intro e he
      rcases List.mem_append.mp he with h | h
      · exact h1' e h
      · exact h2' e h

theorem classifyLoop_init_trace (K : CpxConst) (S : Script) (l : List Int) :
    ∀ e ∈ (classifyLoop K S l Buckets.init).trace, e.isLoopCall = true := by
  obtain ⟨t, h, h'⟩ := classifyLoop_trace K S l Buckets.init
  rw [h]
  simpa [Buckets.init] using h'

/-! ### Shape of the trace of `main` -/

theorem main_eq (K : CpxConst) (S : Script) (status0 : Int) (argv : List String) (r : Result)
    (h : main K S status0 argv = Except.ok r) :
    ∃ x, body K S status0 argv = Except.ok x ∧ r = terminate S x := by
  unfold main at h
  split at h
  · cases h
  · rename_i x hx
    exact ⟨x, hx, by cases h; rfl⟩

theorem openPhase_cases (K : CpxConst) (S : Script) (o : Opts) (r : Step (List Event))
    (h : openPhase K S o = Except.ok r) :
    (S.openEnv = false ∧ r = Step.terminate
      { status := S.openStatus, env := false, held := noneHeld,
        trace := [Event.lib 113 (Call.openCPLEX S.openEnv) S.openStatus,
                  Event.lib 118 (Call.geterrorstring S.openStatus) 0] }) ∨
    (S.openEnv = true ∧ S.setScreen ≠ 0 ∧ r = Step.terminate
      { status := S.setScreen, env := true, held := noneHeld,
        trace := [Event.lib 113 (Call.openCPLEX S.openEnv) S.openStatus,
                  Event.lib 130 (Call.setintparam K.CPXPARAM_ScreenOutput K.CPX_ON)
                    S.setScreen] }) ∨
    (S.openEnv = true ∧ S.setScreen = 0 ∧ o.mset = false ∧ r = Step.next
        [Event.lib 113 (Call.openCPLEX S.openEnv) S.openStatus,
         Event.lib 130 (Call.setintparam K.CPXPARAM_ScreenOutput K.CPX_ON) S.setScreen]) ∨
    (∃ tm, S.openEnv = true ∧ S.setScreen = 0 ∧ o.mset = true ∧ o.tunemeasure = some tm ∧
      S.setMeasure ≠ 0 ∧ r = Step.terminate
      { status := S.setMeasure, env := true, held := noneHeld,
        trace := [Event.lib 113 (Call.openCPLEX S.openEnv) S.openStatus,
                  Event.lib 130 (Call.setintparam K.CPXPARAM_ScreenOutput K.CPX_ON) S.setScreen,
                  Event.lib 138 (Call.setintparam K.CPXPARAM_Tune_Measure tm) S.setMeasure] }) ∨
    (∃ tm, S.openEnv = true ∧ S.setScreen = 0 ∧ o.mset = true ∧ o.tunemeasure = some tm ∧
      S.setMeasure = 0 ∧ r = Step.next
        [Event.lib 113 (Call.openCPLEX S.openEnv) S.openStatus,
         Event.lib 130 (Call.setintparam K.CPXPARAM_ScreenOutput K.CPX_ON) S.setScreen,
         Event.lib 138 (Call.setintparam K.CPXPARAM_Tune_Measure tm) S.setMeasure]) := by
  unfold openPhase at h
  simp only at h
  by_cases c1 : S.openEnv = false
  · left
    simp only [c1, if_true] at h
    exact ⟨c1, by cases h; simp [c1]⟩
  · right
    have c1' : S.openEnv = true := by simpa using c1
    simp only [c1, if_false] at h
    by_cases c2 : S.setScreen = 0
    · right
      simp only [c2, ne_eq, not_true_eq_false, if_false] at h
      cases c3 : o.mset
      · left
        simp only [c3, Bool.false_eq_true, if_false] at h
        exact ⟨c1', c2, rfl, by cases h; simp [c1', c2]⟩
      · right
        simp only [c3, if_true] at h
        cases c4 : o.tunemeasure with
        | none => simp [c4] at h
        | some tm =>
          simp only [c4] at h
          by_cases c5 : S.setMeasure = 0
          · right
            simp only [c5, ne_eq, not_true_eq_false, if_false] at h
            exact ⟨tm, c1', c2, rfl, rfl, c5, by cases h; simp [c1', c2, c5]⟩
          · left
            simp only [ne_eq, c5, not_false_eq_true, if_true] at h
            exact ⟨tm, c1', c2, rfl, rfl, c5, by cases h; simp [c1', c2]⟩
    · left
      simp only [ne_eq, c2, not_false_eq_true, if_true] at h
      exact ⟨c1', c2, by cases h; simp [c1']⟩

theorem fixedPhase_cases (K : CpxConst) (S : Script) (o : Opts) (t : List Event)
    (r : Step Fixed) (h : fixedPhase K S o t = Except.ok r) :
    (o.fixedfile.nonEmpty = false ∧ r = Step.next (fixedNone t)) ∨
    (∃ file, o.fixedfile.nonEmpty = true ∧ o.fixedfile.read = Except.ok file ∧
      ((S.readcopy ≠ 0 ∧ r = Step.terminate
          { status := S.readcopy, env := true, held := noneHeld,
            trace := t ++ [Event.lib 152 (Call.readcopyparam file) S.readcopy] }) ∨
       (S.readcopy = 0 ∧ anyNull S = true ∧ r = Step.terminate
          { status := K.CPXERR_NO_MEMORY, env := true, held := S.mallocOk,
            trace := t ++ readEvents S file ++ mallocEvents S (toInt32 (-S.surplus)) }) ∨
       (S.readcopy = 0 ∧ anyNull S = false ∧
          S.changed.length ≤ sizeBytes (toInt32 (-S.surplus)) 4 / 4 ∧
          S.chgStatus ≠ 0 ∧ r = Step.terminate
          { status := S.chgStatus, env := true, held := S.mallocOk,
            trace := t ++ readEvents S file ++ mallocEvents S (toInt32 (-S.surplus)) ++
              [chgEvent S] }) ∨
       (S.readcopy = 0 ∧ anyNull S = false ∧
          S.changed.length ≤ sizeBytes (toInt32 (-S.surplus)) 4 / 4 ∧
          S.chgStatus = 0 ∧ r = Step.next (fixedDone K S file t)))) := by
  unfold fixedPhase at h
  cases c0 : o.fixedfile.nonEmpty
  · left
    simp only [c0, Bool.false_eq_true, if_false] at h
    exact ⟨rfl, by cases h; rfl⟩
  · right
    simp only [c0, if_true] at h
    cases c1 : o.fixedfile.read with
    | error e => simp [c1] at h
    | ok file =>
      refine ⟨file, rfl, rfl, ?_⟩
      simp only [c1] at h
      by_cases c2 : S.readcopy = 0
      · right
        simp only [c2, ne_eq, not_true_eq_false, if_false] at h
        cases c3 : anyNull S
        · right
          simp only [c3, Bool.false_eq_true, if_false] at h
          by_cases c4 : sizeBytes (toInt32 (-S.surplus)) 4 / 4 < S.changed.length
          · simp [c4] at h
          · simp only [c4, if_false] at h
            by_cases c5 : S.chgStatus = 0
            · right
              simp only [c5, ne_eq, not_true_eq_false, if_false] at h
              exact ⟨c2, rfl, Nat.le_of_not_lt c4, c5, by
                cases h; simp [fixedDone, readEvents, chgEvent, resetEvents, c2, c5]⟩
            · left
              simp only [ne_eq, c5, not_false_eq_true, if_true] at h
              exact ⟨c2, rfl, Nat.le_of_not_lt c4, c5, by
                cases h; simp [readEvents, chgEvent, c2]⟩
        · left
          simp only [c3, if_true] at h
          exact ⟨c2, rfl, by cases h; simp [readEvents, c2]⟩
      · left
        simp only [ne_eq, c2, not_false_eq_true, if_true] at h
        exact ⟨c2, by cases h; rfl⟩

theorem tunePhase_cases (S : Script) (argv : List String) (o : Opts) (f : Fixed)
    (x : AtTerminate) (h : tunePhase S argv o f = Except.ok x) :
    (S.tune ≠ 0 ∧ x =
      { status := S.tune, env := true, held := f.held,
        trace := f.trace ++ [tuneEvent S argv o f] }) ∨
    (S.tune = 0 ∧ S.tunestat ≠ 0 ∧ x =
      { status := S.tune, env := true, held := f.held,
        trace := f.trace ++ [tuneEvent S argv o f] }) ∨
    (S.tune = 0 ∧ S.tunestat = 0 ∧ o.tunedfile.nonEmpty = false ∧
      x =
      { status := S.tune, env := true, held := f.held,
        trace := f.trace ++ [tuneEvent S argv o f] }) ∨
    (∃ file, S.tune = 0 ∧ S.tunestat = 0 ∧ o.tunedfile.nonEmpty = true ∧
      o.tunedfile.read = Except.ok file ∧
      x =
      { status := S.write, env := true, held := f.held,
        trace := f.trace ++ [tuneEvent S argv o f,
          Event.lib 235 (Call.writeparam file) S.write] }) := by
  unfold tunePhase at h
  simp only at h
  by_cases c1 : S.tune = 0
  · right
    simp only [c1, ne_eq, not_true_eq_false, if_false] at h
    by_cases c2 : S.tunestat = 0
    · right
      simp only [c2, ne_eq, not_true_eq_false, if_false] at h
      cases c3 : o.tunedfile.nonEmpty
      · left
        simp only [c3, Bool.false_eq_true, if_false] at h
        exact ⟨c1, c2, rfl, by cases h; simp [c1]⟩
      · right
        simp only [c3, if_true] at h
        cases c4 : o.tunedfile.read with
        | error e => simp [c4] at h
        | ok file =>
          simp only [c4] at h
          exact ⟨file, c1, c2, rfl, rfl, by cases h; simp⟩
    · left
      simp only [ne_eq, c2, not_false_eq_true, if_true] at h
      exact ⟨c1, c2, by cases h; simp [c1]⟩
  · left
    simp only [ne_eq, c1, not_false_eq_true, if_true] at h
    exact ⟨c1, by cases h; rfl⟩

theorem body_cases (K : CpxConst) (S : Script) (status0 : Int) (argv : List String)
    (x : AtTerminate) (h : body K S status0 argv = Except.ok x) :
    (argv.length < 2 ∧
      x = { status := status0, env := false, held := noneHeld, trace := [Event.usage] }) ∨
    (∃ o, 2 ≤ argv.length ∧ parseArgs K argv = Except.ok o ∧
      (openPhase K S o = Except.ok (Step.terminate x) ∨
       ∃ t, openPhase K S o = Except.ok (Step.next t) ∧
        (fixedPhase K S o t = Except.ok (Step.terminate x) ∨
         ∃ f, fixedPhase K S o t = Except.ok (Step.next f) ∧
          tunePhase S argv o f = Except.ok x))) := by
  unfold body at h
  by_cases c0 : argv.length < 2
  · left
    simp only [c0, if_true] at h
    exact ⟨c0, by cases h; rfl⟩
  · right
    simp only [c0, if_false] at h
    cases c1 : parseArgs K argv with
    | error e => simp [c1] at h
    | ok o =>
      refine ⟨o, Nat.le_of_not_lt c0, rfl, ?_⟩
      simp only [c1] at h
      cases c2 : openPhase K S o with
      | error e => simp [c2] at h
      | ok r1 =>
        simp only [c2] at h
        cases r1 with
        | terminate y => left; simp only at h; cases h; rfl
        | next t =>
          right
          refine ⟨t, rfl, ?_⟩
          simp only at h
          cases c3 : fixedPhase K S o t with
          | error e => simp [c3] at h
          | ok r2 =>
            simp only [c3] at h
            cases r2 with
            | terminate y => left; simp only at h; cases h; rfl
            | next f => right; exact ⟨f, rfl, h⟩

theorem filterMap_loopCalls {β : Type} (g : Event → Option β)
    (hg : ∀ e, e.isLoopCall = true → g e = none) (K : CpxConst) (S : Script) (l : List Int) :
    (classifyLoop K S l Buckets.init).trace.filterMap g = [] := by
  rw [List.filterMap_eq_nil_iff]
  intro e he
  exact hg e (classifyLoop_init_trace K S l e he)

theorem filterMap_freeEvents {β : Type} (g : Event → Option β)
    (hg : ∀ p, g (Event.free p) = none) (held : Ptr → Bool) :
    (freeEvents held).filterMap g = [] := by
  rw [List.filterMap_eq_nil_iff]
  intro e he
  simp only [freeEvents, List.mem_map] at he
  obtain ⟨p, _, rfl⟩ := he
  exact hg p

theorem loopCall_tuneFiles (e : Event) (h : e.isLoopCall = true) : e.tuneFiles = none := by
  cases e with
  | lib line c st => cases c <;> simp_all [Event.isLoopCall, Event.tuneFiles]
  | _ => simp [Event.tuneFiles]

theorem body_tuneFiles (K : CpxConst) (S : Script) (status0 : Int) (argv : List String)
    (o : Opts) (x : AtTerminate) (hp : parseArgs K argv = Except.ok o)
    (hb : body K S status0 argv = Except.ok x) :
    x.trace.filterMap Event.tuneFiles = [] ∨
    x.trace.filterMap Event.tuneFiles = [(filecntOf argv o, filenamesOf argv o)] := by
  have hloop := filterMap_loopCalls Event.tuneFiles loopCall_tuneFiles K S S.changed
  rcases body_cases K S status0 argv x hb with ⟨_, rfl⟩ | ⟨o', _, hp', h⟩
  · simp [Event.tuneFiles]
  · rw [hp] at hp'
    cases hp'
    rcases h with h | ⟨t, h1, h⟩
    · rcases openPhase_cases K S o _ h with ⟨_, h⟩ | ⟨_, _, h⟩ | ⟨_, _, _, h⟩ |
        ⟨tm, _, _, _, _, _, h⟩ | ⟨tm, _, _, _, _, _, h⟩ <;> cases h <;> simp [Event.tuneFiles]
    · have ht : t.filterMap Event.tuneFiles = [] := by
        rcases openPhase_cases K S o _ h1 with ⟨_, h⟩ | ⟨_, _, h⟩ | ⟨_, _, _, h⟩ |
          ⟨tm, _, _, _, _, _, h⟩ | ⟨tm, _, _, _, _, _, h⟩ <;> cases h <;> simp [Event.tuneFiles]
      rcases h with h | ⟨f, h2, h⟩
      · rcases fixedPhase_cases K S o t _ h with ⟨_, h⟩ |
          ⟨file, _, _, ⟨_, h⟩ | ⟨_, _, h⟩ | ⟨_, _, _, _, h⟩ | ⟨_, _, _, _, h⟩⟩ <;> cases h <;>
          simp [Event.tuneFiles, readEvents, mallocEvents, chgEvent, ht]
      · have hf : f.trace.filterMap Event.tuneFiles = [] := by
          rcases fixedPhase_cases K S o t _ h2 with ⟨_, h⟩ |
            ⟨file, _, _, ⟨_, h⟩ | ⟨_, _, h⟩ | ⟨_, _, _, _, h⟩ | ⟨_, _, _, _, h⟩⟩ <;> cases h <;>
            simp [Event.tuneFiles, readEvents, mallocEvents, chgEvent, resetEvents, ht, hloop,
              fixedNone, fixedDone]
        rcases tunePhase_cases S argv o f x h with ⟨_, h⟩ | ⟨_, _, h⟩ | ⟨_, _, _, h⟩ |
            ⟨file, _, _, _, _, h⟩ <;> cases h <;>
          simp [Event.tuneFiles, tuneEvent, hf]

theorem terminate_tuneFiles (S : Script) (x : AtTerminate) :
    (terminate S x).trace.filterMap Event.tuneFiles = x.trace.filterMap Event.tuneFiles := by
  rw [terminate_trace]
  simp only [List.filterMap_append]
  rw [filterMap_freeEvents Event.tuneFiles (fun _ => rfl)]
  unfold closeEvents
  split_ifs <;> simp [Event.tuneFiles]

theorem main_tuneFiles (K : CpxConst) (S : Script) (status0 : Int) (argv : List String)
    (o : Opts) (r : Result) (hp : parseArgs K argv = Except.ok o)
    (hm : main K S status0 argv = Except.ok r) :
    ∀ e ∈ r.trace, ∀ y, e.tuneFiles = some y →
      y = (filecntOf argv o, filenamesOf argv o) := by
  obtain ⟨x, hb, rfl⟩ := main_eq K S status0 argv r hm
  intro e he y hy
  have hmem : y ∈ (terminate S x).trace.filterMap Event.tuneFiles :=
    List.mem_filterMap.mpr ⟨e, he, hy⟩
  rw [terminate_tuneFiles] at hmem
  rcases body_tuneFiles K S status0 argv o x hp hb with h | h
  · rw [h] at hmem; cases hmem
  · rw [h] at hmem; simpa using hmem

/-! ### C3: the documented command line -/

/-- C3. For a command line of the documented form (leading options `-a`, `-m`,
`-f file`, `-o file`, file arguments shorter than `BUFSZ`, then `n` problem
files none of which starts with `-`), the option loop ends with `fixedfile` the
argument after the last `-f` (empty without `-f`), `tunedfile` the argument
after the last `-o` (empty without `-o`), `filecnt = n` and `filenames` the
`n` trailing arguments in order; every call of `CPXXtuneparamprobset` that
`main` makes is passed this count and this list. -/
theorem parse_documented_command_line (K : CpxConst) (progname : String) (opts : List Opt)
    (files : List String) (hfit : OptsFit opts) (hnd : NoDash files) :
    ∃ o, parseArgs K (commandLine progname opts files) = Except.ok o ∧
      o.fixedfile = CBuf.terminated (lastFixed opts) ∧
      o.tunedfile = CBuf.terminated (lastTuned opts) ∧
      filecntOf (commandLine progname opts files) o = (files.length : Int) ∧
      filenamesOf (commandLine progname opts files) o = files ∧
      ∀ (S : Script) (status0 : Int) (r : Result),
        main K S status0 (commandLine progname opts files) = Except.ok r →
        ∀ e ∈ r.trace, ∀ y, e.tuneFiles = some y → y = ((files.length : Int), files) := by
  have hp := parseArgs_commandLine K progname opts files hnd
  have hi := foldl_applyOpt_i K opts Opts.init
  have hcnt : filecntOf (commandLine progname opts files)
      (opts.foldl (applyOpt K) Opts.init) = (files.length : Int) := by
    rw [filecntOf, hi]
    simp only [commandLine, Opts.init, List.length_cons, List.length_append]
    push_cast
    ring
  have hnames : filenamesOf (commandLine progname opts files)
      (opts.foldl (applyOpt K) Opts.init) = files := by
    rw [filenamesOf, hi]
    simp only [commandLine, Opts.init]
    rw [Nat.add_comm, List.drop_succ_cons, List.drop_left]
  refine ⟨_, hp, ?_, ?_, hcnt, hnames, ?_⟩
  · rw [foldl_applyOpt_fixed]
    unfold lastFixed
    cases hl : (opts.filterMap Opt.fixedArg).getLast? with
    | none => rfl
    | some s =>
      have hs : s.length < BUFSZ := hfit.1 s (List.mem_of_getLast?_eq_some hl)
      simp [strncpy, hs]
  · rw [foldl_applyOpt_tuned]
    unfold lastTuned
    cases hl : (opts.filterMap Opt.tunedArg).getLast? with
    | none => rfl
    | some s =>
      have hs : s.length < BUFSZ := hfit.2 s (List.mem_of_getLast?_eq_some hl)
      simp [strncpy, hs]
  · intro S status0 r hm e he y hy
    have := main_tuneFiles K S status0 _ _ r hp hm e he y hy
    rw [hcnt, hnames] at this
    exact this

/-- Witness of C3: `xtuneset -a -f fix.prm -o a.prm -o out.prm p.lp q.lp`. -/
theorem parse_documented_command_line_witness :
    OptsFit [Opt.a, Opt.f "fix.prm", Opt.o "a.prm", Opt.o "out.prm"] ∧
    NoDash ["p.lp", "q.lp"] ∧
    ∃ o, parseArgs cplex1261 (commandLine "xtuneset"
        [Opt.a, Opt.f "fix.prm", Opt.o "a.prm", Opt.o "out.prm"] ["p.lp", "q.lp"]) =
          Except.ok o ∧
      o.fixedfile = CBuf.terminated "fix.prm" ∧
      o.tunedfile = CBuf.terminated "out.prm" ∧
      filecntOf (commandLine "xtuneset"
        [Opt.a, Opt.f "fix.prm", Opt.o "a.prm", Opt.o "out.prm"] ["p.lp", "q.lp"]) o = 2 ∧
      filenamesOf (commandLine "xtuneset"
        [Opt.a, Opt.f "fix.prm", Opt.o "a.prm", Opt.o "out.prm"] ["p.lp", "q.lp"]) o =
          ["p.lp", "q.lp"] ∧
      ∀ (S : Script) (status0 : Int) (r : Result),
        main cplex1261 S status0 (commandLine "xtuneset"
          [Opt.a, Opt.f "fix.prm", Opt.o "a.prm", Opt.o "out.prm"] ["p.lp", "q.lp"]) =
            Except.ok r →
        ∀ e ∈ r.trace, ∀ y, e.tuneFiles = some y → y = (2, ["p.lp", "q.lp"]) :=
  have hfit : OptsFit [Opt.a, Opt.f "fix.prm", Opt.o "a.prm", Opt.o "out.prm"] := by
    constructor <;> intro s hs <;> simp [Opt.fixedArg, Opt.tunedArg] at hs <;>
      rcases hs with rfl | rfl <;> decide
  have hnd : NoDash ["p.lp", "q.lp"] := by
    intro s hs
    simp at hs
    rcases hs with rfl | rfl <;> decide
  ⟨hfit, hnd, parse_documented_command_line cplex1261 "xtuneset"
    [Opt.a, Opt.f "fix.prm", Opt.o "a.prm", Opt.o "out.prm"] ["p.lp", "q.lp"] hfit hnd⟩

/-! ### C5: a LONG value in the 32-bit list -/

theorem toInt32_id (x : Int) (h1 : INT_MIN ≤ x) (h2 : x ≤ INT_MAX) : toInt32 x = x := by
  unfold toInt32
  unfold INT_MIN at h1
  unfold INT_MAX at h2
  omega

theorem storedLong_eq (l : Int) : storedLong l = clampLong l := by
  unfold storedLong
  apply toInt32_id <;> unfold clampLong <;> split_ifs <;> simp_all [INT_MAX, INT_MIN]

theorem long_step (K : CpxConst) (S : Script) (p : Int) (b : Buckets)
    (h1 : (S.ptype b.i).2 ≠ K.CPX_PARAMTYPE_INT) (h2 : (S.ptype b.i).2 = K.CPX_PARAMTYPE_LONG) :
    (classifyStep K S p b).inum b.icnt = some p ∧
    (classifyStep K S p b).ival b.icnt = some (storedLong (S.getlong b.i).2) := by
  unfold classifyStep
  simp only [if_neg h1, if_pos h2]
  simp [Arr.write]

/-- C5. In an iteration of the classification loop whose parameter `p` has
type LONG and value `l`, the loop stores `p` in `inum[icnt]` and, in
`ival[icnt]`, `l` clamped to `[INT_MIN, INT_MAX]`: `INT_MAX` above the range,
`INT_MIN` below it, `l` inside.  The stored value lies in `[-2^31, 2^31 - 1]`,
equals `l` exactly when `l` is in that range, and is monotone in `l`. -/
theorem long_value_is_clamped (K : CpxConst) (S : Script) (p : Int) (b : Buckets)
    (l l' : Int) (h1 : (S.ptype b.i).2 ≠ K.CPX_PARAMTYPE_INT)
    (h2 : (S.ptype b.i).2 = K.CPX_PARAMTYPE_LONG) (hl : (S.getlong b.i).2 = l) (h : l ≤ l') :
    (classifyStep K S p b).inum b.icnt = some p ∧
    (classifyStep K S p b).ival b.icnt = some (storedLong l) ∧
    storedLong l = max INT_MIN (min l INT_MAX) ∧
    (storedLong l = if l > INT_MAX then INT_MAX else if l < INT_MIN then INT_MIN else l) ∧
    INT_MIN ≤ storedLong l ∧ storedLong l ≤ INT_MAX ∧
    (storedLong l = l ↔ INT_MIN ≤ l ∧ l ≤ INT_MAX) ∧
    storedLong l ≤ storedLong l' := by
  have hs := long_step K S p b h1 h2
  rw [hl] at hs
  refine ⟨hs.1, hs.2, ?_⟩
  rw [storedLong_eq, storedLong_eq]
  unfold clampLong INT_MAX INT_MIN
  refine ⟨?_, rfl, ?_, ?_, ?_, ?_⟩
  · split_ifs <;> omega
  · split_ifs <;> omega
  · split_ifs <;> omega
  · split_ifs <;> omega
  · split_ifs <;> omega

/-- Witness of C5: the parameter 1110 of type LONG with value `2^32 + 5` is
stored as `INT_MAX`, not as the wrapped value 5. -/
theorem long_value_is_clamped_witness :
    ((okScript [1110] (fun _ => 4) 4294967301).ptype Buckets.init.i).2 ≠
      cplex1261.CPX_PARAMTYPE_INT ∧
    ((okScript [1110] (fun _ => 4) 4294967301).ptype Buckets.init.i).2 =
      cplex1261.CPX_PARAMTYPE_LONG ∧
    (classifyStep cplex1261 (okScript [1110] (fun _ => 4) 4294967301) 1110 Buckets.init).ival
      Buckets.init.icnt = some 2147483647 ∧
    storedLong 4294967301 ≤ storedLong 8589934592 :=
  have h := long_value_is_clamped cplex1261 (okScript [1110] (fun _ => 4) 4294967301) 1110
    Buckets.init 4294967301 8589934592 (by decide) (by decide) rfl (by decide)
  ⟨by decide, by decide, h.2.1.trans (by decide), h.2.2.2.2.2.2.2⟩

/-! ### C10: an option that lacks its file argument -/

/-- C10, at the failing inputs `xtuneset -f` and `xtuneset -a -o`: the option
loop reads `argv[argc]`, the null pointer, and hands it to `strncpy`; the run
of `main` leaves defined behaviour there. -/
theorem option_without_file_reads_null :
    parseArgs cplex1261 ["xtuneset", "-f"] = Except.error (Fault.nullArg 2) ∧
    parseArgs cplex1261 ["xtuneset", "-a", "-o"] = Except.error (Fault.nullArg 3) ∧
    observe cplex1261 (okScript [] (fun _ => 0) 0) 0 ["xtuneset", "-f"] =
      Except.error (Fault.nullArg 2) := by
  decide

/-! ### C9 and C6: the classification loop -/

theorem classifyLoop_append (K : CpxConst) (S : Script) (l1 l2 : List Int) :
    ∀ b : Buckets,
      classifyLoop K S (l1 ++ l2) b = classifyLoop K S l2 (classifyLoop K S l1 b) := by
  induction l1 with
  | nil => intro b; rfl
  | cons p rest ih => intro b; simp [classifyLoop, ih]

theorem classifyStep_inv (K : CpxConst) (S : Script) (p : Int) (n : Nat) (b : Buckets)
    (h : LoopInv n b) : LoopInv (n + 1) (classifyStep K S p b) := by
  obtain ⟨hi, h1, h2, h3, h4⟩ := h
  have h4' : ∀ w ∈ b.writes, 0 ≤ w.2 ∧ w.2 < ((n + 1 : Nat) : Int) := by
    intro w hw
    have := h4 w hw
    push_cast
    omega
  unfold classifyStep
  simp only
  split_ifs
  all_goals
    refine ⟨by simp [hi], by dsimp only; omega, by dsimp only; omega,
      by dsimp only; push_cast; omega, ?_⟩
    dsimp only
    try simp only [List.mem_append, List.mem_cons, List.mem_singleton, List.not_mem_nil, or_false]
    intro w hw
    first
    | exact h4' w hw
    | (rcases hw with hw | rfl | rfl
       · exact h4' w hw
       · dsimp only; push_cast; omega
       · dsimp only; push_cast; omega)

theorem classifyLoop_inv (K : CpxConst) (S : Script) (l : List Int) :
    ∀ (n : Nat) (b : Buckets), LoopInv n b → LoopInv (n + l.length) (classifyLoop K S l b) := by
  induction l with
  | nil => intro n b h; simpa [classifyLoop] using h
  | cons p rest ih =>
    intro n b h
    have := ih (n + 1) _ (classifyStep_inv K S p n b h)
    simpa [classifyLoop, Nat.add_assoc, Nat.add_comm 1] using this

theorem loopInv_init : LoopInv 0 Buckets.init := by
  simp [LoopInv, Buckets.init]

theorem sizeBytes_capacity (n : Int) (h0 : 0 ≤ n) (h1 : n < 2147483648) :
    sizeBytes n 4 / 4 = n.toNat ∧ sizeBytes n 8 / 8 = n.toNat := by
  unfold sizeBytes
  constructor <;> omega

/-- C9. In the classification loop over the `fcnt` entries of `fnum`: at the
start of every iteration `k` the loop index is `k`, `icnt ≥ 0`, `dcnt ≥ 0` and
`icnt + dcnt ≤ k`; every array cell the loop assigns has an index in
`[0, fcnt)`; at loop exit `icnt + dcnt ≤ fcnt`.  In `main` the loop runs only
when the `fcnt` entries fit the allocated arrays, whose length is the `fcnt`
of line 160 when that is not negative. -/
theorem classify_counters_in_bounds (K : CpxConst) (S : Script) (fnum : List Int) :
    (∀ k, k ≤ fnum.length →
      (classifyLoop K S (fnum.take k) Buckets.init).i = k ∧
      0 ≤ (classifyLoop K S (fnum.take k) Buckets.init).icnt ∧
      0 ≤ (classifyLoop K S (fnum.take k) Buckets.init).dcnt ∧
      (classifyLoop K S (fnum.take k) Buckets.init).icnt +
        (classifyLoop K S (fnum.take k) Buckets.init).dcnt ≤ (k : Int)) ∧
    (∀ w ∈ (classifyLoop K S fnum Buckets.init).writes,
      0 ≤ w.2 ∧ w.2 < (fnum.length : Int)) ∧
    (classifyLoop K S fnum Buckets.init).icnt + (classifyLoop K S fnum Buckets.init).dcnt ≤
      (fnum.length : Int) ∧
    (∀ (o : Opts) (t : List Event) (f : Fixed),
      fixedPhase K S o t = Except.ok (Step.next f) → o.fixedfile.nonEmpty = true →
      S.changed.length ≤ sizeBytes (toInt32 (-S.surplus)) 4 / 4) ∧
    (0 ≤ toInt32 (-S.surplus) →
      sizeBytes (toInt32 (-S.surplus)) 4 / 4 = (toInt32 (-S.surplus)).toNat ∧
      sizeBytes (toInt32 (-S.surplus)) 8 / 8 = (toInt32 (-S.surplus)).toNat) := by
  refine ⟨?_, ?_, ?_, ?_, ?_⟩
  · intro k hk
    have h := classifyLoop_inv K S (fnum.take k) 0 _ loopInv_init
    simp only [Nat.zero_add, List.length_take, Nat.min_eq_left hk] at h
    exact ⟨h.1, h.2.1, h.2.2.1, h.2.2.2.1⟩
  · have h := classifyLoop_inv K S fnum 0 _ loopInv_init
    simp only [Nat.zero_add] at h
    exact h.2.2.2.2
  · have h := classifyLoop_inv K S fnum 0 _ loopInv_init
    simp only [Nat.zero_add] at h
    exact h.2.2.2.1
  · intro o t f hf hne
    rcases fixedPhase_cases K S o t _ hf with ⟨h, _⟩ |
      ⟨file, _, _, ⟨_, h⟩ | ⟨_, _, h⟩ | ⟨_, _, _, _, h⟩ | ⟨_, _, hcap, _, _⟩⟩
    · rw [hne] at h; cases h
    · cases h
    · cases h
    · cases h
    · exact hcap
  · intro h0
    exact sizeBytes_capacity _ h0 (by unfold toInt32; omega)

theorem firstN_write_below {α : Type} (a : Arr α) (c : Nat) (k : Int) (v : α)
    (h : (c : Int) ≤ k) : (a.write k v).firstN (c : Int) = a.firstN (c : Int) := by
  unfold Arr.firstN Arr.write
  apply List.map_congr_left
  intro j hj
  have : j < c := by simpa using hj
  have : (j : Int) ≠ k := by omega
  simp [this]

theorem firstN_write_at {α : Type} (a : Arr α) (c : Nat) (v : α) :
    (a.write (c : Int) v).firstN ((c : Int) + 1) = a.firstN (c : Int) ++ [some v] := by
  have h := firstN_write_below a c (c : Int) v (le_refl _)
  unfold Arr.firstN at h ⊢
  have e : ((c : Int) + 1).toNat = c + 1 := by omega
  simp only [Int.toNat_ofNat] at h
  rw [e, List.range_succ, List.map_append, Int.toNat_ofNat, h]
  simp [Arr.write]

theorem classifyLoop_holds (K : CpxConst) (S : Script) (hK : K.TypesDistinct) (l : List Int) :
    ∀ (n : Nat) (b : Buckets) (A B C : List (Option Int)) (D : List (Option CDouble)),
      b.i = n → Holds b A B C D →
      Holds (classifyLoop K S l b)
        (A ++ ((l.enumFrom n).filter (fun e => intLike K S e.1)).map (fun e => some e.2))
        (B ++ ((l.enumFrom n).filter (fun e => intLike K S e.1)).map
          (fun e => some (intValue K S e.1)))
        (C ++ ((l.enumFrom n).filter (fun e => dblLike K S e.1)).map (fun e => some e.2))
        (D ++ ((l.enumFrom n).filter (fun e => dblLike K S e.1)).map
          (fun e => some (S.getdbl e.1).2)) := by
  obtain ⟨k1, k2, k3⟩ := hK
  induction l with
  | nil => intro n b A B C D _ h; simpa [classifyLoop] using h
  | cons p rest ih =>
    intro n b A B C D hi h
    obtain ⟨h1, h2, h3, h4, h5, h6, h7, h8⟩ := h
    rw [classifyLoop]
    by_cases c1 : (S.ptype n).2 = K.CPX_PARAMTYPE_INT
    · have hd : ¬ (S.ptype n).2 = K.CPX_PARAMTYPE_DOUBLE := by rw [c1]; exact k2
      have := ih (n + 1) (classifyStep K S p b) (A ++ [some p]) (B ++ [some (S.getint n).2]) C D
        (by simp [classifyStep, hi, c1])
        (by
          simp only [classifyStep, hi, c1, if_true]
          refine ⟨by simp [h1], h2, ?_, ?_, ?_, ?_, by simp [h7], h8⟩
          · rw [h1, firstN_write_at, ← h1, h3]
          · rw [h1, firstN_write_at, ← h1, h4]
          · exact h5
          · exact h6)
      simpa [List.enumFrom, intLike, dblLike, intValue, c1, k1, k2, k3, List.filter_cons] using this
    · by_cases c2 : (S.ptype n).2 = K.CPX_PARAMTYPE_LONG
      · have hd : ¬ (S.ptype n).2 = K.CPX_PARAMTYPE_DOUBLE := by rw [c2]; exact k3
        have := ih (n + 1) (classifyStep K S p b) (A ++ [some p])
          (B ++ [some (storedLong (S.getlong n).2)]) C D
          (by simp [classifyStep, hi, c1, c2, Ne.symm k1])
          (by
            simp only [classifyStep, hi, c1, c2, Ne.symm k1, if_true, if_false]
            refine ⟨by simp [h1], h2, ?_, ?_, ?_, ?_, by simp [h7], h8⟩
            · rw [h1, firstN_write_at, ← h1, h3]
            · rw [h1, firstN_write_at, ← h1, h4]
            · exact h5
            · exact h6)
        simpa [List.enumFrom, intLike, dblLike, intValue, c1, c2, k1, k2, k3, Ne.symm k1,
            List.filter_cons] using this
      · by_cases c3 : (S.ptype n).2 = K.CPX_PARAMTYPE_DOUBLE
        · have := ih (n + 1) (classifyStep K S p b) A B (C ++ [some p])
            (D ++ [some (S.getdbl n).2])
            (by simp [classifyStep, hi, c1, c2, c3, Ne.symm k2, Ne.symm k3])
            (by
              simp only [classifyStep, hi, c1, c2, c3, Ne.symm k2, Ne.symm k3, if_true, if_false]
              refine ⟨h1, by simp [h2], ?_, ?_, ?_, ?_, h7, by simp [h8]⟩
              · exact h3
              · exact h4
              · rw [h2, firstN_write_at, ← h2, h5]
              · rw [h2, firstN_write_at, ← h2, h6])
          simpa [List.enumFrom, intLike, dblLike, intValue, c1, c2, c3, k1, k2, k3, Ne.symm k2,
              Ne.symm k3, List.filter_cons] using this
        · have := ih (n + 1) (classifyStep K S p b) A B C D
            (by simp [classifyStep, hi, c1, c2, c3, Ne.symm k2, Ne.symm k3])
            (by
              simp only [classifyStep, hi, c1, c2, c3, if_false]
              exact ⟨h1, h2, h3, h4, h5, h6, h7, h8⟩)
          simpa [List.enumFrom, intLike, dblLike, intValue, c1, c2, c3, k1, k2, k3, Ne.symm k2,
              Ne.symm k3, List.filter_cons] using this

theorem holds_init : Holds Buckets.init [] [] [] [] := by
  simp [Holds, Buckets.init, Arr.firstN]

theorem entries_count (K : CpxConst) (S : Script) (hK : K.TypesDistinct) (l : List Int) :
    ∀ n : Nat,
      ((l.enumFrom n).filter (fun e => intLike K S e.1)).length +
        ((l.enumFrom n).filter (fun e => dblLike K S e.1)).length ≤ l.length ∧
      (((l.enumFrom n).filter (fun e => intLike K S e.1)).length +
        ((l.enumFrom n).filter (fun e => dblLike K S e.1)).length = l.length ↔
        ∀ i, n ≤ i → i < n + l.length → intLike K S i = true ∨ dblLike K S i = true) := by
  obtain ⟨k1, k2, k3⟩ := hK
  induction l with
  | nil => intro n; simp; intro i h1 h2; omega
  | cons p rest ih =>
    intro n
    obtain ⟨ih1, ih2⟩ := ih (n + 1)
    have hdisj : ¬ (intLike K S n = true ∧ dblLike K S n = true) := by
      simp only [intLike, dblLike, decide_eq_true_eq]
      rintro ⟨h | h, h'⟩
      · exact k2 (h.symm.trans h')
      · exact k3 (h.symm.trans h')
    have hall : (∀ i, n ≤ i → i < n + (p :: rest).length →
          intLike K S i = true ∨ dblLike K S i = true) ↔
        ((intLike K S n = true ∨ dblLike K S n = true) ∧
          ∀ i, n + 1 ≤ i → i < n + 1 + rest.length →
            intLike K S i = true ∨ dblLike K S i = true) := by
      constructor
      · intro h
        refine ⟨h n (le_refl _) (by simp), fun i h1 h2 => h i (by omega) (by simp; omega)⟩
      · rintro ⟨h0, h⟩ i h1 h2
        rcases Nat.eq_or_lt_of_le h1 with rfl | hlt
        · exact h0
        · exact h i hlt (by simp at h2; omega)
    rw [hall, ← ih2]
    simp only [List.enumFrom, List.filter_cons, List.length_cons]
    cases hi : intLike K S n <;> cases hd : dblLike K S n <;>
      simp [hi, hd] at hdisj ⊢ <;> omega

/-- C6, as amended. After the classification loop, `inum[0..icnt)` is the
subsequence of `fnum` whose type is INT or LONG and `dnum[0..dcnt)` the
subsequence whose type is DOUBLE, in the original order; `ival[k]` is the
value queried for `inum[k]` (clamped to the `int` range for a LONG
parameter) and `dval[k]` the value queried for `dnum[k]`.  `icnt + dcnt` is
the number of entries of one of these three types: it is at most `fcnt`, and
equals `fcnt` exactly when every entry has one of the three types. -/
theorem classify_fills_buckets (K : CpxConst) (S : Script) (hK : K.TypesDistinct)
    (fnum : List Int) :
    (classifyLoop K S fnum Buckets.init).inum.firstN (classifyLoop K S fnum Buckets.init).icnt =
      (intEntries K S fnum).map (fun e => some e.2) ∧
    (classifyLoop K S fnum Buckets.init).ival.firstN (classifyLoop K S fnum Buckets.init).icnt =
      (intEntries K S fnum).map (fun e => some (intValue K S e.1)) ∧
    (classifyLoop K S fnum Buckets.init).dnum.firstN (classifyLoop K S fnum Buckets.init).dcnt =
      (dblEntries K S fnum).map (fun e => some e.2) ∧
    (classifyLoop K S fnum Buckets.init).dval.firstN (classifyLoop K S fnum Buckets.init).dcnt =
      (dblEntries K S fnum).map (fun e => some (S.getdbl e.1).2) ∧
    (classifyLoop K S fnum Buckets.init).icnt = ((intEntries K S fnum).length : Int) ∧
    (classifyLoop K S fnum Buckets.init).dcnt = ((dblEntries K S fnum).length : Int) ∧
    (classifyLoop K S fnum Buckets.init).icnt + (classifyLoop K S fnum Buckets.init).dcnt ≤
      (fnum.length : Int) ∧
    ((classifyLoop K S fnum Buckets.init).icnt + (classifyLoop K S fnum Buckets.init).dcnt =
      (fnum.length : Int) ↔
      ∀ i, i < fnum.length → intLike K S i = true ∨ dblLike K S i = true) := by
  have h := classifyLoop_holds K S hK fnum 0 Buckets.init [] [] [] [] rfl holds_init
  obtain ⟨h1, h2, h3, h4, h5, h6, _, _⟩ := h
  simp only [List.nil_append, List.length_map] at h1 h2 h3 h4 h5 h6
  obtain ⟨hc1, hc2⟩ := entries_count K S hK fnum 0
  refine ⟨h3, h4, h5, h6, h1, h2, ?_, ?_⟩
  · rw [h1, h2]; exact_mod_cast hc1
  · rw [h1, h2]
    constructor
    · intro h i hi
      exact hc2.mp (by exact_mod_cast h) i (Nat.zero_le _) (by omega)
    · intro h
      exact_mod_cast hc2.mpr (fun i _ hi => h i (by omega))

theorem cplex1261_typesDistinct : cplex1261.TypesDistinct := by
  unfold CpxConst.TypesDistinct cplex1261
  decide

/-- C6 fails as stated: with the changed parameters 1035 (type INT) and 1064
(type 3, a string parameter), the loop ends with `icnt + dcnt = 1` while
`fcnt = 2`; the string parameter is in neither list. -/
theorem string_parameter_is_not_copied :
    (classifyLoop cplex1261 (okScript [1035, 1064] (fun i => [1, 3].getD i 0) 1)
        [1035, 1064] Buckets.init).icnt +
      (classifyLoop cplex1261 (okScript [1035, 1064] (fun i => [1, 3].getD i 0) 1)
        [1035, 1064] Buckets.init).dcnt = 1 ∧
    (([1035, 1064] : List Int).length : Int) = 2 := by
  decide

/-- Witness of C6: four changed parameters of types INT, LONG, DOUBLE and
string (3), every queried value 2^40. -/
theorem classify_fills_buckets_witness :
    cplex1261.TypesDistinct ∧
    (classifyLoop cplex1261
        (okScript [1035, 1110, 2001, 1064] (fun i => [1, 4, 2, 3].getD i 0) 1099511627776)
        [1035, 1110, 2001, 1064] Buckets.init).inum.firstN
      (classifyLoop cplex1261
        (okScript [1035, 1110, 2001, 1064] (fun i => [1, 4, 2, 3].getD i 0) 1099511627776)
        [1035, 1110, 2001, 1064] Buckets.init).icnt = [some 1035, some 1110] ∧
    (classifyLoop cplex1261
        (okScript [1035, 1110, 2001, 1064] (fun i => [1, 4, 2, 3].getD i 0) 1099511627776)
        [1035, 1110, 2001, 1064] Buckets.init).ival.firstN
      (classifyLoop cplex1261
        (okScript [1035, 1110, 2001, 1064] (fun i => [1, 4, 2, 3].getD i 0) 1099511627776)
        [1035, 1110, 2001, 1064] Buckets.init).icnt = [some 1099511627776, some 2147483647] :=
  have h := classify_fills_buckets cplex1261
    (okScript [1035, 1110, 2001, 1064] (fun i => [1, 4, 2, 3].getD i 0) 1099511627776)
    cplex1261_typesDistinct [1035, 1110, 2001, 1064]
  ⟨cplex1261_typesDistinct, h.1.trans (by decide), h.2.1.trans (by decide)⟩

/-! ### C7: the cleanup block -/

theorem filter_loopCalls (g : Event → Bool)
    (hg : ∀ e, e.isLoopCall = true → g e = false) (K : CpxConst) (S : Script) (l : List Int) :
    (classifyLoop K S l Buckets.init).trace.filter g = [] := by
  rw [List.filter_eq_nil_iff]
  intro e he
  simp [hg e (classifyLoop_init_trace K S l e he)]

theorem loopCall_freed (e : Event) (h : e.isLoopCall = true) : e.freed = none := by
  cases e <;> simp_all [Event.isLoopCall, Event.freed]

theorem loopCall_allocated (e : Event) (h : e.isLoopCall = true) : e.allocated = none := by
  cases e <;> simp_all [Event.isLoopCall, Event.allocated]

theorem loopCall_isOpen (e : Event) (h : e.isLoopCall = true) : e.isOpen = false := by
  cases e with
  | lib line c st => cases c <;> simp_all [Event.isLoopCall, Event.isOpen]
  | _ => simp [Event.isOpen]

theorem loopCall_isClose (e : Event) (h : e.isLoopCall = true) : e.isClose = false := by
  cases e with
  | lib line c st => cases c <;> simp_all [Event.isLoopCall, Event.isClose]
  | _ => simp [Event.isClose]

theorem mallocEvents_allocated (S : Script) (n : Int) :
    (mallocEvents S n).filterMap Event.allocated = allPtrs.filter S.mallocOk := by
  unfold mallocEvents allPtrs
  cases h1 : S.mallocOk Ptr.fnum <;> cases h2 : S.mallocOk Ptr.inum <;>
    cases h3 : S.mallocOk Ptr.ival <;> cases h4 : S.mallocOk Ptr.dnum <;>
    cases h5 : S.mallocOk Ptr.dval <;>
    simp [Event.allocated, List.filter, h1, h2, h3, h4, h5]

theorem mallocEvents_freed (S : Script) (n : Int) :
    (mallocEvents S n).filterMap Event.freed = [] := by
  simp [mallocEvents, Event.freed]

theorem mallocEvents_isOpen (S : Script) (n : Int) :
    (mallocEvents S n).filter Event.isOpen = [] := by
  simp [mallocEvents, Event.isOpen]

theorem mallocEvents_isClose (S : Script) (n : Int) :
    (mallocEvents S n).filter Event.isClose = [] := by
  simp [mallocEvents, Event.isClose]

theorem allPtrs_filter_noneHeld : allPtrs.filter noneHeld = [] := by
  simp [allPtrs, noneHeld]

theorem body_resources (K : CpxConst) (S : Script) (status0 : Int) (argv : List String)
    (o : Opts) (x : AtTerminate) (hp : parseArgs K argv = Except.ok o)
    (hb : body K S status0 argv = Except.ok x) :
    x.trace.filterMap Event.freed = [] ∧
    x.trace.filterMap Event.allocated = allPtrs.filter x.held ∧
    x.trace.filter Event.isClose = [] ∧
    (x.trace.filter Event.isOpen).length = if x.env = true then 1 else 0 := by
  have hl1 := filterMap_loopCalls Event.freed loopCall_freed K S S.changed
  have hl2 := filterMap_loopCalls Event.allocated loopCall_allocated K S S.changed
  have hl3 := filter_loopCalls Event.isOpen loopCall_isOpen K S S.changed
  have hl4 := filter_loopCalls Event.isClose loopCall_isClose K S S.changed
  rcases body_cases K S status0 argv x hb with ⟨hlen, rfl⟩ | ⟨o', hlen, hp', h⟩
  · simp [Event.freed, Event.allocated, Event.isOpen, Event.isClose, allPtrs_filter_noneHeld]
  · rw [hp] at hp'
    cases hp'
    rcases h with h | ⟨t, h1, h⟩
    · rcases openPhase_cases K S o _ h with
        ⟨c1, h⟩ | ⟨c1, c2, h⟩ | ⟨c1, c2, c3, h⟩ | ⟨tm, c1, c2, c3, c4, c5, h⟩ |
          ⟨tm, c1, c2, c3, c4, c5, h⟩ <;>
        cases h <;> simp [Event.freed, Event.allocated, Event.isOpen, Event.isClose,
            allPtrs_filter_noneHeld, List.filter_cons, mallocEvents_allocated, mallocEvents_freed,
            mallocEvents_isOpen, mallocEvents_isClose, hl1, hl2, hl3, hl4, *]
    · have ht :
          t.filterMap Event.freed = [] ∧ t.filterMap Event.allocated = [] ∧
          t.filter Event.isClose = [] ∧ (t.filter Event.isOpen).length = 1 := by
        rcases openPhase_cases K S o _ h1 with
          ⟨c1, h⟩ | ⟨c1, c2, h⟩ | ⟨c1, c2, c3, h⟩ | ⟨tm, c1, c2, c3, c4, c5, h⟩ |
            ⟨tm, c1, c2, c3, c4, c5, h⟩ <;>
          cases h <;> simp [Event.freed, Event.allocated, Event.isOpen, Event.isClose,
              allPtrs_filter_noneHeld, List.filter_cons, *]
      rcases h with h | ⟨f, h2, h⟩
      · rcases fixedPhase_cases K S o t _ h with
          ⟨d0, h⟩ |
            ⟨file, d0, d1, ⟨d2, h⟩ | ⟨d2, d3, h⟩ | ⟨d2, d3, d4, d5, h⟩ | ⟨d2, d3, d4, d5, h⟩⟩ <;>
          cases h <;> simp [Event.freed, Event.allocated, Event.isOpen, Event.isClose,
              allPtrs_filter_noneHeld, List.filter_cons, mallocEvents_allocated, mallocEvents_freed,
              mallocEvents_isOpen, mallocEvents_isClose, hl1, hl2, hl3, hl4, readEvents, chgEvent,
              ht, *]
      · have hf :
            f.trace.filterMap Event.freed = [] ∧
            f.trace.filterMap Event.allocated = allPtrs.filter f.held ∧
            f.trace.filter Event.isClose = [] ∧ (f.trace.filter Event.isOpen).length = 1 := by
          rcases fixedPhase_cases K S o t _ h2 with
            ⟨d0, h⟩ |
              ⟨file, d0, d1, ⟨d2, h⟩ | ⟨d2, d3, h⟩ | ⟨d2, d3, d4, d5, h⟩ | ⟨d2, d3, d4, d5, h⟩⟩ <;>
            cases h <;> simp [Event.freed, Event.allocated, Event.isOpen, Event.isClose,
                allPtrs_filter_noneHeld, List.filter_cons, mallocEvents_allocated,
                mallocEvents_freed, mallocEvents_isOpen, mallocEvents_isClose, hl1, hl2, hl3, hl4,
                readEvents, chgEvent, resetEvents,
              fixedNone, fixedDone, ht, *]
        rcases tunePhase_cases S argv o f x h with
          ⟨e1, h⟩ | ⟨e1, e2, h⟩ | ⟨e1, e2, e3, h⟩ | ⟨wfile, e1, e2, e3, e4, h⟩ <;>
          cases h <;> simp [Event.freed, Event.allocated, Event.isOpen, Event.isClose,
              allPtrs_filter_noneHeld, List.filter_cons, mallocEvents_allocated, mallocEvents_freed,
              mallocEvents_isOpen, mallocEvents_isClose, hl1, hl2, hl3, hl4, tuneEvent, hf, *]

theorem body_parse (K : CpxConst) (S : Script) (status0 : Int) (argv : List String)
    (x : AtTerminate) (hb : body K S status0 argv = Except.ok x) :
    ∃ o, parseArgs K argv = Except.ok o := by
  rcases body_cases K S status0 argv x hb with ⟨hlen, _⟩ | ⟨o, _, hp, _⟩
  · match argv, hlen with
    | [], _ => exact ⟨_, rfl⟩
    | [a], _ => exact ⟨Opts.init, by simp [parseArgs, parseLoop, Opts.init]⟩
    | _ :: _ :: _, h => exact absurd h (by simp)
  · exact ⟨o, hp⟩

theorem freeEvents_freed (held : Ptr → Bool) :
    (freeEvents held).filterMap Event.freed = allPtrs.filter held := by
  unfold freeEvents allPtrs
  rw [List.filterMap_map]
  have : (Event.freed ∘ Event.free) = some := rfl
  rw [this, List.filterMap_some]

theorem freeEvents_allocated (held : Ptr → Bool) :
    (freeEvents held).filterMap Event.allocated = [] :=
  filterMap_freeEvents Event.allocated (fun _ => rfl) held

theorem freeEvents_isOpen (held : Ptr → Bool) : (freeEvents held).filter Event.isOpen = [] := by
  rw [List.filter_eq_nil_iff]
  intro e he
  simp only [freeEvents, List.mem_map] at he
  obtain ⟨p, _, rfl⟩ := he
  simp [Event.isOpen]

theorem freeEvents_isClose (held : Ptr → Bool) : (freeEvents held).filter Event.isClose = [] := by
  rw [List.filter_eq_nil_iff]
  intro e he
  simp only [freeEvents, List.mem_map] at he
  obtain ⟨p, _, rfl⟩ := he
  simp [Event.isClose]

/-- C7. Every run of `main` that returns has passed through the block at
`TERMINATE`; on return all five array pointers are null, the pointers freed
are exactly the pointers successfully allocated, each freed once, and
`CPXXcloseCPLEX` was called as often as `CPXXopenCPLEX` returned a handle,
which is at most once. -/
theorem cleanup_on_every_exit (K : CpxConst) (S : Script) (status0 : Int)
    (argv : List String) (r : Result) (hm : main K S status0 argv = Except.ok r) :
    (∃ x, body K S status0 argv = Except.ok x ∧ r = terminate S x) ∧
    (∀ p, r.held p = false) ∧
    r.trace.filterMap Event.freed = r.trace.filterMap Event.allocated ∧
    (r.trace.filterMap Event.freed).Nodup ∧
    (r.trace.filter Event.isClose).length = (r.trace.filter Event.isOpen).length ∧
    (r.trace.filter Event.isOpen).length ≤ 1 := by
  obtain ⟨x, hb, rfl⟩ := main_eq K S status0 argv r hm
  obtain ⟨o, hp⟩ := body_parse K S status0 argv x hb
  obtain ⟨h1, h2, h3, h4⟩ := body_resources K S status0 argv o x hp hb
  have hc1 : (closeEvents S x).filterMap Event.freed = [] := by
    unfold closeEvents; split_ifs <;> simp [Event.freed]
  have hc2 : (closeEvents S x).filterMap Event.allocated = [] := by
    unfold closeEvents; split_ifs <;> simp [Event.allocated]
  have hc3 : (closeEvents S x).filter Event.isOpen = [] := by
    unfold closeEvents; split_ifs <;> simp [Event.isOpen]
  have hc4 : ((closeEvents S x).filter Event.isClose).length = if x.env = true then 1 else 0 := by
    unfold closeEvents; split_ifs <;> simp [Event.isClose]
  have hf : (terminate S x).trace.filterMap Event.freed = allPtrs.filter x.held := by
    rw [terminate_trace]
    simp [h1, hc1, freeEvents_freed]
  refine ⟨⟨x, hb, rfl⟩, terminate_held S x, ?_, ?_, ?_, ?_⟩
  · rw [hf, terminate_trace]
    simp [h2, hc2, freeEvents_allocated]
  · rw [hf]
    exact List.Nodup.filter _ (by decide)
  · rw [terminate_trace]
    simp only [List.filter_append, List.length_append, h3, hc3, hc4, h4, freeEvents_isOpen,
      freeEvents_isClose, List.length_nil]
    omega
  · rw [terminate_trace]
    simp only [List.filter_append, List.length_append, h4, hc3, freeEvents_isOpen,
      List.length_nil]
    split_ifs <;> omega

/-- Witness of C7: the allocation of `dval` fails; the four other arrays are
freed, the environment is closed once. -/
theorem cleanup_on_every_exit_witness :
    ∃ r, main cplex1261 noMemScript 0 ["xtuneset", "-f", "fix.prm", "p.lp"] = Except.ok r ∧
      (∀ p, r.held p = false) ∧
      r.trace.filterMap Event.freed = [Ptr.fnum, Ptr.inum, Ptr.ival, Ptr.dnum] ∧
      r.trace.filterMap Event.allocated = [Ptr.fnum, Ptr.inum, Ptr.ival, Ptr.dnum] ∧
      (r.trace.filter Event.isClose).length = 1 :=
  ⟨_, rfl,
    (cleanup_on_every_exit cplex1261 noMemScript 0 ["xtuneset", "-f", "fix.prm", "p.lp"]
      _ rfl).2.1, by decide, by decide, by decide⟩

/-! ### C1 and C2: the exit status and the failing call -/

theorem afterFailure_none (l : List Event) (h : l.filterMap Event.failure = []) :
    afterFailure l = none := by
  induction l with
  | nil => rfl
  | cons e rest ih =>
    rw [List.filterMap_cons] at h
    cases he : e.failure with
    | none => rw [he] at h; simp [afterFailure, he, ih h]
    | some st => rw [he] at h; simp at h

theorem afterFailure_append (a b : List Event) :
    afterFailure (a ++ b) =
      match afterFailure a with
      | some (st, rest) => some (st, rest ++ b)
      | none => afterFailure b := by
  induction a with
  | nil => rfl
  | cons e rest ih =>
    rw [List.cons_append, afterFailure, afterFailure]
    cases he : e.failure with
    | none => simpa using ih
    | some st => simp

theorem loopCall_failure (e : Event) (h : e.isLoopCall = true) : e.failure = none := by
  cases e with
  | lib line c st =>
    cases c <;> simp_all [Event.isLoopCall, Event.failure, checkedLines]
  | _ => simp [Event.failure]

theorem classifyLoop_failure (K : CpxConst) (S : Script) (l : List Int) :
    (classifyLoop K S l Buckets.init).trace.filterMap Event.failure = [] :=
  filterMap_loopCalls Event.failure loopCall_failure K S l

theorem classifyLoop_afterFailure (K : CpxConst) (S : Script) (l : List Int) :
    afterFailure (classifyLoop K S l Buckets.init).trace = none :=
  afterFailure_none _ (classifyLoop_failure K S l)

theorem loopCall_allocFailure (e : Event) (h : e.isLoopCall = true) :
    e.allocFailure = false := by
  cases e <;> simp_all [Event.isLoopCall, Event.allocFailure]

theorem classifyLoop_allocFailed (K : CpxConst) (S : Script) (l : List Int) :
    allocFailed (classifyLoop K S l Buckets.init).trace = false := by
  unfold allocFailed
  rw [List.any_eq_false]
  intro e he
  simp [loopCall_allocFailure e (classifyLoop_init_trace K S l e he)]

theorem allocFailed_nil : allocFailed [] = false := rfl

theorem allocFailed_cons (e : Event) (l : List Event) :
    allocFailed (e :: l) = (e.allocFailure || allocFailed l) := by
  simp [allocFailed]

theorem allocFailed_append (a b : List Event) :
    allocFailed (a ++ b) = (allocFailed a || allocFailed b) := by
  simp [allocFailed]

theorem mallocEvents_allocFailed (S : Script) (n : Int) :
    allocFailed (mallocEvents S n) = anyNull S := by
  simp [allocFailed, mallocEvents, anyNull, Event.allocFailure, Bool.or_assoc]

theorem mallocEvents_failure (S : Script) (n : Int) :
    (mallocEvents S n).filterMap Event.failure = [] := by
  simp [mallocEvents, Event.failure]

theorem mallocEvents_afterFailure (S : Script) (n : Int) :
    afterFailure (mallocEvents S n) = none :=
  afterFailure_none _ (mallocEvents_failure S n)

theorem body_failure (K : CpxConst) (S : Script) (status0 : Int) (argv : List String)
    (o : Opts) (x : AtTerminate) (hp : parseArgs K argv = Except.ok o) (h2 : 2 ≤ argv.length)
    (hb : body K S status0 argv = Except.ok x) :
    x.env = S.openEnv ∧
    x.trace.filterMap Event.failure =
      (match afterFailure x.trace with
       | some p => [p.1]
       | none => []) ∧
    x.status =
      (match afterFailure x.trace with
       | some p => p.1
       | none => if allocFailed x.trace = true then K.CPXERR_NO_MEMORY else 0) ∧
    ∀ st post, afterFailure x.trace = some (st, post) →
      post.all Event.isCleanup = true ∧ post.filterMap Event.failure = [] := by
  rcases body_cases K S status0 argv x hb with ⟨hlen, rfl⟩ | ⟨o', hlen, hp', h⟩
  · exact absurd hlen (by omega)
  · rw [hp] at hp'
    cases hp'
    rcases h with h | ⟨t, h1, h⟩
    · rcases openPhase_cases K S o _ h with
        ⟨c1, h⟩ | ⟨c1, c2, h⟩ | ⟨c1, c2, c3, h⟩ | ⟨tm, c1, c2, c3, c4, c5, h⟩ |
          ⟨tm, c1, c2, c3, c4, c5, h⟩ <;>
        cases h <;> simp [Event.failure, Event.isCleanup, checkedLines, afterFailure,
            afterFailure_append, allocFailed_append, mallocEvents_allocFailed, mallocEvents_failure,
            mallocEvents_afterFailure, classifyLoop_failure, classifyLoop_afterFailure,
            classifyLoop_allocFailed, allocFailed_nil, allocFailed_cons, Event.allocFailure, *]
    · have ht :
          S.openEnv = true ∧ afterFailure t = none ∧ t.filterMap Event.failure = [] ∧
          allocFailed t = false := by
        rcases openPhase_cases K S o _ h1 with
          ⟨c1, h⟩ | ⟨c1, c2, h⟩ | ⟨c1, c2, c3, h⟩ | ⟨tm, c1, c2, c3, c4, c5, h⟩ |
            ⟨tm, c1, c2, c3, c4, c5, h⟩ <;>
          cases h <;> simp [Event.failure, Event.isCleanup, checkedLines, afterFailure,
              afterFailure_append, allocFailed_append, mallocEvents_allocFailed,
              mallocEvents_failure, mallocEvents_afterFailure, classifyLoop_failure,
              classifyLoop_afterFailure, classifyLoop_allocFailed, allocFailed_nil,
              allocFailed_cons, Event.allocFailure, *]
      rcases h with h | ⟨f, h2, h⟩
      · rcases fixedPhase_cases K S o t _ h with
          ⟨d0, h⟩ |
            ⟨file, d0, d1, ⟨d2, h⟩ | ⟨d2, d3, h⟩ | ⟨d2, d3, d4, d5, h⟩ | ⟨d2, d3, d4, d5, h⟩⟩ <;>
          cases h <;> simp [Event.failure, Event.isCleanup, checkedLines, afterFailure,
              afterFailure_append, allocFailed_append, mallocEvents_allocFailed,
              mallocEvents_failure, mallocEvents_afterFailure, classifyLoop_failure,
              classifyLoop_afterFailure, classifyLoop_allocFailed, allocFailed_nil,
              allocFailed_cons, Event.allocFailure, readEvents, chgEvent, ht, *]
      · have hf :
            afterFailure f.trace = none ∧ f.trace.filterMap Event.failure = [] ∧
            allocFailed f.trace = false := by
          rcases fixedPhase_cases K S o t _ h2 with
            ⟨d0, h⟩ |
              ⟨file, d0, d1, ⟨d2, h⟩ | ⟨d2, d3, h⟩ | ⟨d2, d3, d4, d5, h⟩ | ⟨d2, d3, d4, d5, h⟩⟩ <;>
            cases h <;> simp [Event.failure, Event.isCleanup, checkedLines, afterFailure,
                afterFailure_append, allocFailed_append, mallocEvents_allocFailed,
                mallocEvents_failure, mallocEvents_afterFailure, classifyLoop_failure,
                classifyLoop_afterFailure, classifyLoop_allocFailed, allocFailed_nil,
                allocFailed_cons, Event.allocFailure, readEvents, chgEvent, resetEvents,
              fixedNone, fixedDone, ht, *]
        rcases tunePhase_cases S argv o f x h with
          ⟨e1, h⟩ | ⟨e1, e2, h⟩ | ⟨e1, e2, e3, h⟩ | ⟨wfile, e1, e2, e3, e4, h⟩ <;>
          cases h <;>
            first
              | (simp [Event.failure, Event.isCleanup, checkedLines, afterFailure,
                  afterFailure_append, allocFailed_append, mallocEvents_allocFailed,
                  mallocEvents_failure, mallocEvents_afterFailure, classifyLoop_failure,
                  classifyLoop_afterFailure, classifyLoop_allocFailed, allocFailed_nil,
                  allocFailed_cons, Event.allocFailure, tuneEvent, hf, *]; done)
              | (by_cases hw : S.write = 0 <;> simp [Event.failure, Event.isCleanup, checkedLines,
                  afterFailure, afterFailure_append, allocFailed_append, mallocEvents_allocFailed,
                  mallocEvents_failure, mallocEvents_afterFailure, classifyLoop_failure,
                  classifyLoop_afterFailure, classifyLoop_allocFailed, allocFailed_nil,
                  allocFailed_cons, Event.allocFailure, tuneEvent, hf, hw, *])

theorem freeEvents_failure (held : Ptr → Bool) :
    (freeEvents held).filterMap Event.failure = [] :=
  filterMap_freeEvents Event.failure (fun _ => rfl) held

theorem freeEvents_cleanup (held : Ptr → Bool) :
    (freeEvents held).all Event.isCleanup = true := by
  rw [List.all_eq_true]
  intro e he
  simp only [freeEvents, List.mem_map] at he
  obtain ⟨p, _, rfl⟩ := he
  rfl

theorem freeEvents_allocFailed (held : Ptr → Bool) : allocFailed (freeEvents held) = false := by
  unfold allocFailed
  rw [List.any_eq_false]
  intro e he
  simp only [freeEvents, List.mem_map] at he
  obtain ⟨p, _, rfl⟩ := he
  simp [Event.allocFailure]

theorem closeEvents_cleanup (S : Script) (x : AtTerminate) :
    (closeEvents S x).all Event.isCleanup = true := by
  unfold closeEvents
  split_ifs <;> simp [Event.isCleanup]

theorem closeEvents_allocFailed (S : Script) (x : AtTerminate) :
    allocFailed (closeEvents S x) = false := by
  unfold closeEvents
  split_ifs <;> simp [allocFailed, Event.allocFailure]

theorem closeEvents_failure (S : Script) (x : AtTerminate) :
    (closeEvents S x).filterMap Event.failure =
      if x.env = true ∧ S.close ≠ 0 then [S.close] else [] := by
  unfold closeEvents
  by_cases h1 : x.env = true <;> by_cases h2 : S.close = 0 <;>
    simp [h1, h2, Event.failure, checkedLines]

theorem closeEvents_afterFailure (S : Script) (x : AtTerminate) :
    afterFailure (closeEvents S x) =
      if x.env = true ∧ S.close ≠ 0 then
        some (S.close, [Event.lib 267 (Call.geterrorstring x.status) 0])
      else none := by
  unfold closeEvents
  by_cases h1 : x.env = true <;> by_cases h2 : S.close = 0 <;>
    simp [h1, h2, afterFailure, Event.failure, checkedLines]

theorem main_usage (K : CpxConst) (S : Script) (status0 : Int) (argv : List String)
    (r : Result) (hlen : argv.length < 2) (hm : main K S status0 argv = Except.ok r) :
    r.trace = [Event.usage] := by
  obtain ⟨x, hb, rfl⟩ := main_eq K S status0 argv r hm
  rcases body_cases K S status0 argv x hb with ⟨_, rfl⟩ | ⟨o, h2, _⟩
  · simp [terminate_trace, freeEvents, closeEvents, noneHeld]
  · omega

theorem main_exit_status (K : CpxConst) (S : Script) (status0 : Int) (argv : List String)
    (r : Result) (h2 : 2 ≤ argv.length) (hm : main K S status0 argv = Except.ok r) :
    r.status = exitSpec K r.trace := by
  obtain ⟨x, hb, rfl⟩ := main_eq K S status0 argv r hm
  obtain ⟨o, hp⟩ := body_parse K S status0 argv x hb
  obtain ⟨_, hf, hs, _⟩ := body_failure K S status0 argv o x hp h2 hb
  unfold exitSpec
  rw [terminate_status, terminate_trace]
  simp only [List.filterMap_append, freeEvents_failure, closeEvents_failure, List.append_nil,
    allocFailed_append, freeEvents_allocFailed, closeEvents_allocFailed, Bool.or_false]
  by_cases hc : x.env = true ∧ S.close ≠ 0
  · simp [hc]
  · simp only [hc, if_false, List.append_nil]
    rw [hs, hf]
    cases afterFailure x.trace <;> simp

theorem main_after_failure (K : CpxConst) (S : Script) (status0 : Int) (argv : List String)
    (r : Result) (hm : main K S status0 argv = Except.ok r) (st : Int) (post : List Event)
    (ha : afterFailure r.trace = some (st, post)) :
    post.all Event.isCleanup = true ∧
      r.status = ((post.filterMap Event.failure).getLast?).getD st := by
  by_cases h2 : 2 ≤ argv.length
  · obtain ⟨x, hb, rfl⟩ := main_eq K S status0 argv r hm
    obtain ⟨o, hp⟩ := body_parse K S status0 argv x hb
    obtain ⟨_, _, hs, hpost⟩ := body_failure K S status0 argv o x hp h2 hb
    rw [terminate_trace, List.append_assoc, afterFailure_append] at ha
    rw [terminate_status]
    cases hx : afterFailure x.trace with
    | some p =>
      obtain ⟨st0, post0⟩ := p
      rw [hx] at ha hs
      simp only [Option.some.injEq, Prod.mk.injEq] at ha
      obtain ⟨rfl, rfl⟩ := ha
      obtain ⟨hc, hn⟩ := hpost st0 post0 hx
      refine ⟨by simp [List.all_append, hc, freeEvents_cleanup, closeEvents_cleanup], ?_⟩
      simp only [List.filterMap_append, hn, freeEvents_failure, closeEvents_failure,
        List.nil_append]
      by_cases hcl : x.env = true ∧ S.close ≠ 0
      · simp [hcl]
      · simp [hcl, hs]
    | none =>
      rw [hx] at ha
      simp only at ha
      rw [afterFailure_append, afterFailure_none _ (freeEvents_failure x.held)] at ha
      simp only at ha
      rw [closeEvents_afterFailure] at ha
      by_cases hcl : x.env = true ∧ S.close ≠ 0
      · rw [if_pos hcl] at ha
        simp only [Option.some.injEq, Prod.mk.injEq] at ha
        obtain ⟨rfl, rfl⟩ := ha
        simp [hcl, Event.isCleanup, Event.failure, checkedLines]
      · rw [if_neg hcl] at ha
        cases ha
  · have := main_usage K S status0 argv r (by omega) hm
    rw [this] at ha
    simp [afterFailure, Event.failure] at ha

/-! ### `main` returns -/

theorem parseLoop_mset (K : CpxConst) (argv : List String) :
    ∀ (fuel : Nat) (st o : Opts), (st.mset = true → ∃ tm, st.tunemeasure = some tm) →
      parseLoop K argv fuel st = Except.ok o → (o.mset = true → ∃ tm, o.tunemeasure = some tm) := by
  intro fuel
  induction fuel with
  | zero =>
    intro st o hst h
    unfold parseLoop at h
    split_ifs at h
    cases h
    exact hst
  | succ fuel ih =>
    intro st o hst h
    by_cases hi : st.i < argv.length
    · have hget : argv.get? st.i = some (argv.get ⟨st.i, hi⟩) := List.get?_eq_get hi
      rw [parseLoop_at K argv fuel st _ hget] at h
      split_ifs at h
      · cases h; exact hst
      · exact ih _ o (fun _ => ⟨_, rfl⟩) h
      · exact ih _ o (fun _ => ⟨_, rfl⟩) h
      · split at h
        · cases h
        · refine ih _ o ?_ h; exact hst
      · split at h
        · cases h
        · refine ih _ o ?_ h; exact hst
      · refine ih _ o ?_ h; exact hst
    · rw [parseLoop_done K argv _ st (Nat.le_of_not_lt hi)] at h
      cases h
      exact hst

theorem parseArgs_mset (K : CpxConst) (argv : List String) (o : Opts)
    (h : parseArgs K argv = Except.ok o) : o.mset = true → ∃ tm, o.tunemeasure = some tm :=
  parseLoop_mset K argv _ Opts.init o (by simp [Opts.init]) h

theorem main_total (K : CpxConst) (S : Script) (status0 : Int) (argv : List String) (o : Opts)
    (hp : parseArgs K argv = Except.ok o) (hd : StaysDefined S o) :
    ∃ r, main K S status0 argv = Except.ok r := by
  obtain ⟨⟨s1, hs1⟩, ⟨s2, hs2⟩, hcap⟩ := hd
  have hm := parseArgs_mset K argv o hp
  suffices h : ∃ x, body K S status0 argv = Except.ok x by
    obtain ⟨x, hx⟩ := h
    exact ⟨terminate S x, by simp [main, hx]⟩
  unfold body
  by_cases hlen : argv.length < 2
  · simp [hlen]
  · simp only [hlen, if_false, hp]
    have hopen : ∃ r, openPhase K S o = Except.ok r := by
      unfold openPhase
      cases hmset : o.mset with
      | false =>
        simp only [Bool.false_eq_true, if_false]
        split_ifs <;> exact ⟨_, rfl⟩
      | true =>
        obtain ⟨tm, htm⟩ := hm hmset
        simp only [htm, if_true]
        split_ifs <;> exact ⟨_, rfl⟩
    obtain ⟨r1, hr1⟩ := hopen
    rw [hr1]
    cases r1 with
    | terminate y => exact ⟨y, rfl⟩
    | next t =>
      simp only
      have hfixed : ∃ r, fixedPhase K S o t = Except.ok r := by
        unfold fixedPhase
        by_cases hne : o.fixedfile.nonEmpty = true
        · have hc := hcap hne
          rw [hs1] at hne
          simp only [hs1, hne, CBuf.read, Nat.not_lt.mpr hc, if_false, if_true]
          split_ifs <;> exact ⟨_, rfl⟩
        · rw [hs1] at hne
          simp only [hs1, hne, if_false]
          exact ⟨_, rfl⟩
      obtain ⟨r2, hr2⟩ := hfixed
      rw [hr2]
      cases r2 with
      | terminate y => exact ⟨y, rfl⟩
      | next f =>
        simp only
        unfold tunePhase
        simp only [hs2, CBuf.read]
        split_ifs <;> exact ⟨_, rfl⟩

/-- C1, as amended. For `argc ≥ 2`, the value `main` returns is the status of
the last failed call of the run, where a failed call is `CPXXopenCPLEX`
returning no handle or a call at line 130, 138, 152, 178, 217, 235 or 257
returning a non-zero status; when no such call failed it is
`CPXERR_NO_MEMORY` if an allocation failed and 0 otherwise, whatever
`tunestat` is and whatever the calls at the other lines returned.  `main`
does return when the file names fit their buffers and the library stores no
more parameter numbers than `fnum` holds. -/
theorem exit_status_is_last_failure (K : CpxConst) (S : Script) (status0 : Int)
    (argv : List String) (h2 : 2 ≤ argv.length) :
    (∀ r, main K S status0 argv = Except.ok r → r.status = exitSpec K r.trace) ∧
    (∀ o, parseArgs K argv = Except.ok o → StaysDefined S o →
      ∃ r, main K S status0 argv = Except.ok r) :=
  ⟨fun r hm => main_exit_status K S status0 argv r h2 hm,
   fun o hp hd => main_total K S status0 argv o hp hd⟩

/-- Witness of C1: tuning incomplete (`tunestat = 1`), exit status 0. -/
theorem exit_status_is_last_failure_witness :
    2 ≤ ["xtuneset", "-o", "out.prm", "p.lp"].length ∧
    ∃ r, main cplex1261 incompleteScript 7 ["xtuneset", "-o", "out.prm", "p.lp"] = Except.ok r ∧
      r.status = exitSpec cplex1261 r.trace ∧ r.status = 0 :=
  ⟨by decide, _, rfl,
    (exit_status_is_last_failure cplex1261 incompleteScript 7
      ["xtuneset", "-o", "out.prm", "p.lp"] (by decide)).1 _ rfl, by decide⟩

/-- C1 fails as stated. With `xtuneset -f fix.prm p.lp`: when
`CPXXsetdefaults` returns 1013 (and the sizing call 1207) `main` returns 0;
when the allocation of `dval` fails, `main` returns 1001 although no library
call failed. -/
theorem unchecked_failure_exits_zero :
    observe cplex1261 uncheckedFailScript 0 ["xtuneset", "-f", "fix.prm", "p.lp"] =
      Except.ok (0,
        [Event.lib 113 (Call.openCPLEX true) 0,
         Event.lib 130 (Call.setintparam 1035 1) 0,
         Event.lib 152 (Call.readcopyparam "fix.prm") 0,
         Event.lib 159 (Call.getchgparam false 0) 1207,
         Event.malloc Ptr.fnum 0 true,
         Event.malloc Ptr.inum 0 true,
         Event.malloc Ptr.ival 0 true,
         Event.malloc Ptr.dnum 0 true,
         Event.malloc Ptr.dval 0 true,
         Event.lib 178 (Call.getchgparam true 0) 0,
         Event.lib 211 Call.setdefaults 1013,
         Event.lib 212 (Call.setintparam 1035 1) 0,
         Event.lib 217 (Call.tuneparamprobset 1 ["p.lp"] 0 [] [] 0 [] [] 0) 0,
         Event.free Ptr.fnum,
         Event.free Ptr.inum,
         Event.free Ptr.ival,
         Event.free Ptr.dnum,
         Event.free Ptr.dval,
         Event.lib 257 Call.closeCPLEX 0]) ∧
    observe cplex1261 noMemScript 0 ["xtuneset", "-f", "fix.prm", "p.lp"] =
      Except.ok (1001,
        [Event.lib 113 (Call.openCPLEX true) 0,
         Event.lib 130 (Call.setintparam 1035 1) 0,
         Event.lib 152 (Call.readcopyparam "fix.prm") 0,
         Event.lib 159 (Call.getchgparam false 0) 1207,
         Event.malloc Ptr.fnum 4 true,
         Event.malloc Ptr.inum 4 true,
         Event.malloc Ptr.ival 4 true,
         Event.malloc Ptr.dnum 4 true,
         Event.malloc Ptr.dval 8 false,
         Event.free Ptr.fnum,
         Event.free Ptr.inum,
         Event.free Ptr.ival,
         Event.free Ptr.dnum,
         Event.lib 257 Call.closeCPLEX 0]) := by
  decide

/-- C2, as amended. When `CPXXopenCPLEX` returns no handle, or a call at line
130, 138, 152, 178, 217, 235 or 257 returns a non-zero status, every later
event of the run is a `free`, `CPXXcloseCPLEX` or `CPXXgeterrorstring`, and
`main` returns the status of that call, unless `CPXXcloseCPLEX` fails after
it, whose status is then returned.  `st` and `post` are the status of the
first such call of the trace and the events after it. -/
theorem failed_call_goes_to_cleanup (K : CpxConst) (S : Script) (status0 : Int)
    (argv : List String) (r : Result) (hm : main K S status0 argv = Except.ok r)
    (st : Int) (post : List Event) (ha : afterFailure r.trace = some (st, post)) :
    post.all Event.isCleanup = true ∧
      r.status = ((post.filterMap Event.failure).getLast?).getD st :=
  main_after_failure K S status0 argv r hm st post ha

/-- Witness of C2: `CPXXreadcopyparam` fails with 1423; what follows is
`CPXXcloseCPLEX`, which fails with 1002, and `CPXXgeterrorstring`; `main`
returns 1002. -/
theorem failed_call_goes_to_cleanup_witness :
    ∃ r, main cplex1261 readFailScript 0 ["xtuneset", "-f", "fix.prm", "p.lp"] = Except.ok r ∧
      afterFailure r.trace = some (1423,
        [Event.lib 257 Call.closeCPLEX 1002, Event.lib 267 (Call.geterrorstring 1423) 0]) ∧
      r.status = 1002 :=
  ⟨_, rfl, by decide,
    (failed_call_goes_to_cleanup cplex1261 readFailScript 0
      ["xtuneset", "-f", "fix.prm", "p.lp"] _ rfl 1423
      [Event.lib 257 Call.closeCPLEX 1002, Event.lib 267 (Call.geterrorstring 1423) 0]
      (by decide)).2.trans (by decide)⟩

/-- C2 fails as stated. With `xtuneset -f fix.prm p.lp`: the sizing call of
`CPXXgetchgparam` returns 1207 and `CPXXgetparamtype` returns 1013, and `main`
goes on to allocate, to query the parameter, to restore the defaults and to
tune, and returns 0. -/
theorem unchecked_failure_continues :
    observe cplex1261 typeQueryFailScript 0 ["xtuneset", "-f", "fix.prm", "p.lp"] =
      Except.ok (0,
        [Event.lib 113 (Call.openCPLEX true) 0,
         Event.lib 130 (Call.setintparam 1035 1) 0,
         Event.lib 152 (Call.readcopyparam "fix.prm") 0,
         Event.lib 159 (Call.getchgparam false 0) 1207,
         Event.malloc Ptr.fnum 4 true,
         Event.malloc Ptr.inum 4 true,
         Event.malloc Ptr.ival 4 true,
         Event.malloc Ptr.dnum 4 true,
         Event.malloc Ptr.dval 8 true,
         Event.lib 178 (Call.getchgparam true 1) 0,
         Event.lib 183 (Call.getparamtype 1035) 1013,
         Event.lib 186 (Call.getintparam 1035) 0,
         Event.lib 211 Call.setdefaults 0,
         Event.lib 212 (Call.setintparam 1035 1) 0,
         Event.lib 217 (Call.tuneparamprobset 1 ["p.lp"] 1 [some 1035] [some 1] 0 [] [] 0) 0,
         Event.free Ptr.fnum,
         Event.free Ptr.inum,
         Event.free Ptr.ival,
         Event.free Ptr.dnum,
         Event.free Ptr.dval,
         Event.lib 257 Call.closeCPLEX 0]) := by
  decide

/-! ### C8: when the tuned parameters are written -/

theorem loopCall_written (e : Event) (h : e.isLoopCall = true) : e.written = none := by
  cases e with
  | lib line c st => cases c <;> simp_all [Event.isLoopCall, Event.written]
  | _ => simp [Event.written]

theorem loopCall_tuned (e : Event) (h : e.isLoopCall = true) : e.tuned = none := by
  cases e with
  | lib line c st => cases c <;> simp_all [Event.isLoopCall, Event.tuned]
  | _ => simp [Event.tuned]

theorem read_terminated (b : CBuf) (s : String) (h : b.read = Except.ok s) :
    b = CBuf.terminated s := by
  cases b with
  | terminated s' => simp only [CBuf.read, Except.ok.injEq] at h; rw [h]
  | unterminated s' => simp [CBuf.read] at h

theorem body_written (K : CpxConst) (S : Script) (status0 : Int) (argv : List String)
    (o : Opts) (x : AtTerminate) (hp : parseArgs K argv = Except.ok o)
    (hb : body K S status0 argv = Except.ok x) :
    (x.trace.filterMap Event.written ≠ [] ↔
      (o.tunedfile.nonEmpty = true ∧ EarlierOk S o ∧
        x.trace.filterMap Event.tuned = [(0, 0)])) ∧
    (∀ file ∈ x.trace.filterMap Event.written, o.tunedfile = CBuf.terminated file) ∧
    (x.trace.filterMap Event.written).length ≤ 1 := by
  have hl1 := filterMap_loopCalls Event.written loopCall_written K S S.changed
  have hl2 := filterMap_loopCalls Event.tuned loopCall_tuned K S S.changed
  rcases body_cases K S status0 argv x hb with ⟨hlen, rfl⟩ | ⟨o', hlen, hp', h⟩
  · simp [Event.written, Event.tuned, EarlierOk, hl1, hl2]
  · rw [hp] at hp'
    cases hp'
    rcases h with h | ⟨t, h1, h⟩
    · rcases openPhase_cases K S o _ h with
        ⟨c1, h⟩ | ⟨c1, c2, h⟩ | ⟨c1, c2, c3, h⟩ | ⟨tm, c1, c2, c3, c4, c5, h⟩ |
          ⟨tm, c1, c2, c3, c4, c5, h⟩ <;>
        cases h <;> simp [Event.written, Event.tuned, EarlierOk, hl1, hl2, *]
    · have ht :
          S.openEnv = true ∧ S.setScreen = 0 ∧ (o.mset = true → S.setMeasure = 0) ∧
          t.filterMap Event.written = [] ∧ t.filterMap Event.tuned = [] := by
        rcases openPhase_cases K S o _ h1 with
          ⟨c1, h⟩ | ⟨c1, c2, h⟩ | ⟨c1, c2, c3, h⟩ | ⟨tm, c1, c2, c3, c4, c5, h⟩ |
            ⟨tm, c1, c2, c3, c4, c5, h⟩ <;>
          cases h <;> simp [Event.written, Event.tuned, EarlierOk, hl1, hl2, *]
      rcases h with h | ⟨f, h2, h⟩
      · rcases fixedPhase_cases K S o t _ h with
          ⟨d0, h⟩ |
            ⟨file, d0, d1, ⟨d2, h⟩ | ⟨d2, d3, h⟩ | ⟨d2, d3, d4, d5, h⟩ | ⟨d2, d3, d4, d5, h⟩⟩ <;>
          cases h <;> simp [Event.written, Event.tuned, EarlierOk, hl1, hl2, readEvents,
              mallocEvents, chgEvent, ht, *]
      · have hf :
            (o.fixedfile.nonEmpty = true → S.readcopy = 0 ∧ S.chgStatus = 0) ∧
            f.trace.filterMap Event.written = [] ∧ f.trace.filterMap Event.tuned = [] := by
          rcases fixedPhase_cases K S o t _ h2 with
            ⟨d0, h⟩ |
              ⟨file, d0, d1, ⟨d2, h⟩ | ⟨d2, d3, h⟩ | ⟨d2, d3, d4, d5, h⟩ | ⟨d2, d3, d4, d5, h⟩⟩ <;>
            cases h <;> simp [Event.written, Event.tuned, EarlierOk, hl1, hl2, readEvents,
                mallocEvents, chgEvent, resetEvents,
              fixedNone, fixedDone, ht, *]
        rcases tunePhase_cases S argv o f x h with
          ⟨e1, h⟩ | ⟨e1, e2, h⟩ | ⟨e1, e2, e3, h⟩ | ⟨wfile, e1, e2, e3, e4, h⟩ <;>
          cases h <;>
            first
              | (simp [Event.written, Event.tuned, EarlierOk, hl1, hl2, tuneEvent, hf, *]; done)
              | (simp [Event.written, Event.tuned, EarlierOk, hl1, hl2, tuneEvent, hf, ht,
                  read_terminated _ _ e4, *]; exact ⟨by rw [← read_terminated _ _ e4]; exact e3,
                  ht.2.2.1, hf.1⟩)

theorem terminate_written (S : Script) (x : AtTerminate) :
    (terminate S x).trace.filterMap Event.written = x.trace.filterMap Event.written := by
  rw [terminate_trace]
  simp only [List.filterMap_append]
  rw [filterMap_freeEvents Event.written (fun _ => rfl)]
  unfold closeEvents
  split_ifs <;> simp [Event.written]

theorem terminate_tuned (S : Script) (x : AtTerminate) :
    (terminate S x).trace.filterMap Event.tuned = x.trace.filterMap Event.tuned := by
  rw [terminate_trace]
  simp only [List.filterMap_append]
  rw [filterMap_freeEvents Event.tuned (fun _ => rfl)]
  unfold closeEvents
  split_ifs <;> simp [Event.tuned]

/-- C8. `CPXXwriteparam` is called if and only if the `-o` buffer is not
empty, every checked call before the tuning call returned 0, and
`CPXXtuneparamprobset` was called and returned status 0 with `tunestat = 0`;
it is called at most once, with the path held in the `-o` buffer. -/
theorem tuned_file_written_iff (K : CpxConst) (S : Script) (status0 : Int)
    (argv : List String) (o : Opts) (r : Result) (hp : parseArgs K argv = Except.ok o)
    (hm : main K S status0 argv = Except.ok r) :
    (r.trace.filterMap Event.written ≠ [] ↔
      (o.tunedfile.nonEmpty = true ∧ EarlierOk S o ∧
        r.trace.filterMap Event.tuned = [(0, 0)])) ∧
    (∀ file ∈ r.trace.filterMap Event.written, o.tunedfile = CBuf.terminated file) ∧
    (r.trace.filterMap Event.written).length ≤ 1 := by
  obtain ⟨x, hb, rfl⟩ := main_eq K S status0 argv r hm
  rw [terminate_written, terminate_tuned]
  exact body_written K S status0 argv o x hp hb

/-- Witness of C8: `xtuneset -o out.prm p.lp` with every call succeeding; the
tuned parameters are written to `out.prm`. -/
theorem tuned_file_written_iff_witness :
    ∃ o r, parseArgs cplex1261 ["xtuneset", "-o", "out.prm", "p.lp"] = Except.ok o ∧
      main cplex1261 (okScript [] (fun _ => 0) 0) 0 ["xtuneset", "-o", "out.prm", "p.lp"] =
        Except.ok r ∧
      r.trace.filterMap Event.written = ["out.prm"] ∧
      (r.trace.filterMap Event.written ≠ [] ↔
        (o.tunedfile.nonEmpty = true ∧ EarlierOk (okScript [] (fun _ => 0) 0) o ∧
          r.trace.filterMap Event.tuned = [(0, 0)])) :=
  ⟨_, _, rfl, rfl, by decide,
    (tuned_file_written_iff cplex1261 (okScript [] (fun _ => 0) 0) 0
      ["xtuneset", "-o", "out.prm", "p.lp"] _ _ rfl rfl).1⟩

/-! ### C4: the tuning measure at the tuning call -/

theorem atTune_append {ρ : Type} (R : Registry ρ) (a b : List Event) :
    ∀ s : ρ, R.atTune s (a ++ b) =
      match R.atTune s a with
      | some s1 => some s1
      | none => R.atTune (R.replay s a) b := by
  induction a with
  | nil => intro s; rfl
  | cons e rest ih =>
    intro s
    rw [List.cons_append, Registry.atTune, Registry.atTune]
    cases he : e.tuned with
    | none => simpa [Registry.replay] using ih (R.step s e)
    | some p => simp

theorem replay_append {ρ : Type} (R : Registry ρ) (a b : List Event) (s : ρ) :
    R.replay s (a ++ b) = R.replay (R.replay s a) b := by
  simp [Registry.replay]

theorem replay_nil {ρ : Type} (R : Registry ρ) (s : ρ) : R.replay s [] = s := rfl

theorem replay_cons {ρ : Type} (R : Registry ρ) (e : Event) (l : List Event) (s : ρ) :
    R.replay s (e :: l) = R.replay (R.step s e) l := rfl

theorem atTune_none {ρ : Type} (R : Registry ρ) (l : List Event)
    (h : l.filterMap Event.tuned = []) : ∀ s : ρ, R.atTune s l = none := by
  induction l with
  | nil => intro s; rfl
  | cons e rest ih =>
    intro s
    rw [List.filterMap_cons] at h
    cases he : e.tuned with
    | none => rw [he] at h; simp [Registry.atTune, he, ih h]
    | some p => rw [he] at h; simp at h

theorem step_loopCall {ρ : Type} (R : Registry ρ) (s : ρ) (e : Event)
    (h : e.isLoopCall = true) : R.step s e = s := by
  cases e with
  | lib line c st => cases c <;> simp_all [Event.isLoopCall, Registry.step]
  | _ => rfl

theorem replay_of_inert {ρ : Type} (R : Registry ρ) (l : List Event)
    (h : ∀ e ∈ l, ∀ s : ρ, R.step s e = s) : ∀ s : ρ, R.replay s l = s := by
  induction l with
  | nil => intro s; rfl
  | cons e rest ih =>
    intro s
    rw [replay_cons, h e (by simp) s]
    exact ih (fun e' he' => h e' (by simp [he'])) s

theorem replay_loop {ρ : Type} (R : Registry ρ) (K : CpxConst) (S : Script) (l : List Int)
    (s : ρ) : R.replay s (classifyLoop K S l Buckets.init).trace = s :=
  replay_of_inert R _
    (fun e he s => step_loopCall R s e (classifyLoop_init_trace K S l e he)) s

theorem replay_mallocEvents {ρ : Type} (R : Registry ρ) (S : Script) (n : Int) (s : ρ) :
    R.replay s (mallocEvents S n) = s := by
  simp [mallocEvents, Registry.replay, Registry.step]

theorem atTune_loop {ρ : Type} (R : Registry ρ) (K : CpxConst) (S : Script) (l : List Int)
    (s : ρ) : R.atTune s (classifyLoop K S l Buckets.init).trace = none :=
  atTune_none R _ (filterMap_loopCalls Event.tuned loopCall_tuned K S l) s

theorem atTune_mallocEvents {ρ : Type} (R : Registry ρ) (S : Script) (n : Int) (s : ρ) :
    R.atTune s (mallocEvents S n) = none :=
  atTune_none R _ (by simp [mallocEvents, Event.tuned]) s

theorem isReset_intro {ρ : Type} (R : Registry ρ) (K : CpxConst) (s1 : ρ) :
    R.IsReset K (R.setint (R.defaults s1) K.CPXPARAM_ScreenOutput K.CPX_ON) :=
  ⟨s1, rfl⟩

theorem body_atTune (K : CpxConst) (S : Script) (status0 : Int) (argv : List String)
    (o : Opts) (x : AtTerminate)
    {ρ : Type} (R : Registry ρ) (s0 : ρ) (hp : parseArgs K argv = Except.ok o)
    (hb : body K S status0 argv = Except.ok x) :
    ∀ s, R.atTune s0 x.trace = some s →
      (o.fixedfile.nonEmpty = false → ∀ tm, o.tunemeasure = some tm → o.mset = true →
        S.setMeasure = 0 →
        s = R.setint (R.setint s0 K.CPXPARAM_ScreenOutput K.CPX_ON) K.CPXPARAM_Tune_Measure tm) ∧
      (o.fixedfile.nonEmpty = true → S.setdefaults = 0 → S.resetScreen = 0 → R.IsReset K s) := by
  rcases body_cases K S status0 argv x hb with ⟨hlen, rfl⟩ | ⟨o', hlen, hp', h⟩
  · simp [atTune_append, replay_append, replay_nil, replay_cons, replay_loop, replay_mallocEvents,
        atTune_loop, atTune_mallocEvents, Registry.atTune, Registry.step, Event.tuned,
        isReset_intro]
  · rw [hp] at hp'
    cases hp'
    rcases h with h | ⟨t, h1, h⟩
    · rcases openPhase_cases K S o _ h with
        ⟨c1, h⟩ | ⟨c1, c2, h⟩ | ⟨c1, c2, c3, h⟩ | ⟨tm, c1, c2, c3, c4, c5, h⟩ |
          ⟨tm, c1, c2, c3, c4, c5, h⟩ <;>
        cases h <;> simp [atTune_append, replay_append, replay_nil, replay_cons, replay_loop,
            replay_mallocEvents, atTune_loop, atTune_mallocEvents, Registry.atTune, Registry.step,
            Event.tuned, isReset_intro, *]
    · have ht : (∀ s, R.atTune s t = none) ∧ (∀ tm, o.tunemeasure = some tm → o.mset = true →
          R.replay s0 t = R.setint (R.setint s0 K.CPXPARAM_ScreenOutput K.CPX_ON)
            K.CPXPARAM_Tune_Measure tm) := by
        rcases openPhase_cases K S o _ h1 with
          ⟨c1, h⟩ | ⟨c1, c2, h⟩ | ⟨c1, c2, c3, h⟩ | ⟨tm, c1, c2, c3, c4, c5, h⟩ |
            ⟨tm, c1, c2, c3, c4, c5, h⟩ <;>
          cases h <;> simp [atTune_append, replay_append, replay_nil, replay_cons, replay_loop,
              replay_mallocEvents, atTune_loop, atTune_mallocEvents, Registry.atTune, Registry.step,
              Event.tuned, isReset_intro, *]
      rcases h with h | ⟨f, h2, h⟩
      · rcases fixedPhase_cases K S o t _ h with
          ⟨d0, h⟩ |
            ⟨file, d0, d1, ⟨d2, h⟩ | ⟨d2, d3, h⟩ | ⟨d2, d3, d4, d5, h⟩ | ⟨d2, d3, d4, d5, h⟩⟩ <;>
          cases h <;> simp [atTune_append, replay_append, replay_nil, replay_cons, replay_loop,
              replay_mallocEvents, atTune_loop, atTune_mallocEvents, Registry.atTune, Registry.step,
              Event.tuned, isReset_intro, readEvents, chgEvent, ht, *]
      · have hf : (∀ s, R.atTune s f.trace = none) ∧
          (o.fixedfile.nonEmpty = false → ∀ tm, o.tunemeasure = some tm → o.mset = true →
            R.replay s0 f.trace = R.setint (R.setint s0 K.CPXPARAM_ScreenOutput K.CPX_ON)
              K.CPXPARAM_Tune_Measure tm) ∧
          (o.fixedfile.nonEmpty = true → S.setdefaults = 0 → S.resetScreen = 0 →
            R.IsReset K (R.replay s0 f.trace)) := by
          rcases fixedPhase_cases K S o t _ h2 with
            ⟨d0, h⟩ |
              ⟨file, d0, d1, ⟨d2, h⟩ | ⟨d2, d3, h⟩ | ⟨d2, d3, d4, d5, h⟩ | ⟨d2, d3, d4, d5, h⟩⟩ <;>
            cases h <;>
              (simp [atTune_append, replay_append, replay_nil, replay_cons, replay_loop,
                   replay_mallocEvents, atTune_loop, atTune_mallocEvents, Registry.atTune,
                   Registry.step, Event.tuned, isReset_intro, readEvents, chgEvent, resetEvents,
                   fixedNone, fixedDone, ht, *]
               first
                 | exact ht.2
                 | (intro hA hB; simp [hA, hB, isReset_intro]))
        rcases tunePhase_cases S argv o f x h with
          ⟨e1, h⟩ | ⟨e1, e2, h⟩ | ⟨e1, e2, e3, h⟩ | ⟨wfile, e1, e2, e3, e4, h⟩ <;>
          cases h <;>
            (simp [atTune_append, replay_append, replay_nil, replay_cons, replay_loop,
                 replay_mallocEvents, atTune_loop, atTune_mallocEvents, Registry.atTune,
                 Registry.step, Event.tuned, isReset_intro, tuneEvent, hf, *]
             exact ⟨fun a tm b c _ => hf.2.1 a tm b c, hf.2.2⟩)

theorem loopCall_measureSet (K : CpxConst) (e : Event) (h : e.isLoopCall = true) :
    e.measureSet K = none := by
  cases e with
  | lib line c st => cases c <;> simp_all [Event.isLoopCall, Event.measureSet]
  | _ => simp [Event.measureSet]

theorem body_measureSet (K : CpxConst) (S : Script) (status0 : Int) (argv : List String)
    (o : Opts) (x : AtTerminate)
    (hne : K.CPXPARAM_ScreenOutput ≠ K.CPXPARAM_Tune_Measure) (hms : o.mset = false)
    (hp : parseArgs K argv = Except.ok o)
    (hb : body K S status0 argv = Except.ok x) :
    x.trace.filterMap (Event.measureSet K) = [] := by
  have hl1 := filterMap_loopCalls (Event.measureSet K) (loopCall_measureSet K) K S S.changed
  rcases body_cases K S status0 argv x hb with ⟨hlen, rfl⟩ | ⟨o', hlen, hp', h⟩
  · simp [Event.measureSet, hl1, hne]
  · rw [hp] at hp'
    cases hp'
    rcases h with h | ⟨t, h1, h⟩
    · rcases openPhase_cases K S o _ h with
        ⟨c1, h⟩ | ⟨c1, c2, h⟩ | ⟨c1, c2, c3, h⟩ | ⟨tm, c1, c2, c3, c4, c5, h⟩ |
          ⟨tm, c1, c2, c3, c4, c5, h⟩ <;>
        cases h <;>
          first
            | (simp [Event.measureSet, hl1, hne, *]; done)
            | (rw [hms] at c3; cases c3)
    · have ht : t.filterMap (Event.measureSet K) = [] := by
        rcases openPhase_cases K S o _ h1 with
          ⟨c1, h⟩ | ⟨c1, c2, h⟩ | ⟨c1, c2, c3, h⟩ | ⟨tm, c1, c2, c3, c4, c5, h⟩ |
            ⟨tm, c1, c2, c3, c4, c5, h⟩ <;>
          cases h <;>
            first
              | (simp [Event.measureSet, hl1, hne, *]; done)
              | (rw [hms] at c3; cases c3)
      rcases h with h | ⟨f, h2, h⟩
      · rcases fixedPhase_cases K S o t _ h with
          ⟨d0, h⟩ |
            ⟨file, d0, d1, ⟨d2, h⟩ | ⟨d2, d3, h⟩ | ⟨d2, d3, d4, d5, h⟩ | ⟨d2, d3, d4, d5, h⟩⟩ <;>
          cases h <;> simp [Event.measureSet, hl1, hne, readEvents, mallocEvents, chgEvent, ht, *]
      · have hf : f.trace.filterMap (Event.measureSet K) = [] := by
          rcases fixedPhase_cases K S o t _ h2 with
            ⟨d0, h⟩ |
              ⟨file, d0, d1, ⟨d2, h⟩ | ⟨d2, d3, h⟩ | ⟨d2, d3, d4, d5, h⟩ | ⟨d2, d3, d4, d5, h⟩⟩ <;>
            cases h <;> simp [Event.measureSet, hl1, hne, readEvents, mallocEvents, chgEvent,
                resetEvents,
              fixedNone, fixedDone, ht, *]
        rcases tunePhase_cases S argv o f x h with
          ⟨e1, h⟩ | ⟨e1, e2, h⟩ | ⟨e1, e2, e3, h⟩ | ⟨wfile, e1, e2, e3, e4, h⟩ <;>
          cases h <;> simp [Event.measureSet, hl1, hne, tuneEvent, hf, *]

theorem body_tuned (K : CpxConst) (S : Script) (status0 : Int) (argv : List String)
    (o : Opts) (x : AtTerminate) (hp : parseArgs K argv = Except.ok o) (h2 : 2 ≤ argv.length)
    (hb : body K S status0 argv = Except.ok x) :
    (x.trace.filterMap Event.tuned ≠ [] ↔
      (EarlierOk S o ∧ (o.fixedfile.nonEmpty = true → anyNull S = false))) := by
  have hl2 := filterMap_loopCalls Event.tuned loopCall_tuned K S S.changed
  rcases body_cases K S status0 argv x hb with ⟨hlen, rfl⟩ | ⟨o', hlen, hp', h⟩
  · exact absurd hlen (by omega)
  · rw [hp] at hp'
    cases hp'
    rcases h with h | ⟨t, h1, h⟩
    · rcases openPhase_cases K S o _ h with
        ⟨c1, h⟩ | ⟨c1, c2, h⟩ | ⟨c1, c2, c3, h⟩ | ⟨tm, c1, c2, c3, c4, c5, h⟩ |
          ⟨tm, c1, c2, c3, c4, c5, h⟩ <;>
        cases h <;> simp [Event.tuned, EarlierOk, hl2, *]
    · have ht :
          S.openEnv = true ∧ S.setScreen = 0 ∧ (o.mset = true → S.setMeasure = 0) ∧
          t.filterMap Event.tuned = [] := by
        rcases openPhase_cases K S o _ h1 with
          ⟨c1, h⟩ | ⟨c1, c2, h⟩ | ⟨c1, c2, c3, h⟩ | ⟨tm, c1, c2, c3, c4, c5, h⟩ |
            ⟨tm, c1, c2, c3, c4, c5, h⟩ <;>
          cases h <;> simp [Event.tuned, EarlierOk, hl2, *]
      rcases h with h | ⟨f, h2, h⟩
      · rcases fixedPhase_cases K S o t _ h with
          ⟨d0, h⟩ |
            ⟨file, d0, d1, ⟨d2, h⟩ | ⟨d2, d3, h⟩ | ⟨d2, d3, d4, d5, h⟩ | ⟨d2, d3, d4, d5, h⟩⟩ <;>
          cases h <;> simp [Event.tuned, EarlierOk, hl2, readEvents, mallocEvents, chgEvent, ht, *]
      · have hf :
            (o.fixedfile.nonEmpty = true → S.readcopy = 0 ∧ S.chgStatus = 0 ∧ anyNull S = false) ∧
            f.trace.filterMap Event.tuned = [] := by
          rcases fixedPhase_cases K S o t _ h2 with
            ⟨d0, h⟩ |
              ⟨file, d0, d1, ⟨d2, h⟩ | ⟨d2, d3, h⟩ | ⟨d2, d3, d4, d5, h⟩ | ⟨d2, d3, d4, d5, h⟩⟩ <;>
            cases h <;> simp [Event.tuned, EarlierOk, hl2, readEvents, mallocEvents, chgEvent,
                resetEvents,
              fixedNone, fixedDone, ht, *]
        rcases tunePhase_cases S argv o f x h with
          ⟨e1, h⟩ | ⟨e1, e2, h⟩ | ⟨e1, e2, e3, h⟩ | ⟨wfile, e1, e2, e3, e4, h⟩ <;>
          cases h <;> (simp [Event.tuned, EarlierOk, hl2, tuneEvent, hf, *]; tauto)

theorem atTune_some {ρ : Type} (R : Registry ρ) (l : List Event)
    (h : l.filterMap Event.tuned ≠ []) : ∀ s : ρ, ∃ s1, R.atTune s l = some s1 := by
  induction l with
  | nil => exact absurd rfl h
  | cons e rest ih =>
    intro s
    rw [Registry.atTune]
    cases he : e.tuned with
    | some p => exact ⟨s, rfl⟩
    | none =>
      rw [List.filterMap_cons, he] at h
      exact ih h _

theorem terminate_atTune {ρ : Type} (R : Registry ρ) (s0 : ρ) (S : Script) (x : AtTerminate) :
    R.atTune s0 (terminate S x).trace = R.atTune s0 x.trace := by
  rw [terminate_trace, List.append_assoc, atTune_append]
  cases R.atTune s0 x.trace with
  | some s => rfl
  | none =>
    apply atTune_none
    rw [List.filterMap_append, filterMap_freeEvents Event.tuned (fun _ => rfl)]
    unfold closeEvents
    split_ifs <;> simp [Event.tuned]

theorem terminate_measureSet (K : CpxConst) (S : Script) (x : AtTerminate) :
    (terminate S x).trace.filterMap (Event.measureSet K) =
      x.trace.filterMap (Event.measureSet K) := by
  rw [terminate_trace]
  simp only [List.filterMap_append]
  rw [filterMap_freeEvents (Event.measureSet K) (fun _ => rfl)]
  unfold closeEvents
  split_ifs <;> simp [Event.measureSet]

theorem parsed_state (K : CpxConst) (progname : String) (opts : List Opt)
    (files : List String) (hfit : OptsFit opts) (hnd : NoDash files) :
    ∃ o, parseArgs K (commandLine progname opts files) = Except.ok o ∧
      o.fixedfile = CBuf.terminated (lastFixed opts) ∧
      o.tunedfile = CBuf.terminated (lastTuned opts) ∧
      o.tunemeasure = lastMeasure K opts ∧
      o.mset = (lastMeasure K opts).isSome := by
  refine ⟨_, parseArgs_commandLine K progname opts files hnd, ?_, ?_, ?_, ?_⟩
  · rw [foldl_applyOpt_fixed]
    unfold lastFixed
    cases hl : (opts.filterMap Opt.fixedArg).getLast? with
    | none => rfl
    | some s =>
      have hs : s.length < BUFSZ := hfit.1 s (List.mem_of_getLast?_eq_some hl)
      simp [strncpy, hs]
  · rw [foldl_applyOpt_tuned]
    unfold lastTuned
    cases hl : (opts.filterMap Opt.tunedArg).getLast? with
    | none => rfl
    | some s =>
      have hs : s.length < BUFSZ := hfit.2 s (List.mem_of_getLast?_eq_some hl)
      simp [strncpy, hs]
  · rw [foldl_applyOpt_measure]
    cases lastMeasure K opts <;> rfl
  · rw [foldl_applyOpt_mset]
    rfl

theorem commandLine_length (progname : String) (opts : List Opt) (files : List String)
    (h : opts ≠ []) : 2 ≤ (commandLine progname opts files).length := by
  have := renderOpts_length opts
  have : 0 < opts.length := List.length_pos.mpr h
  simp [commandLine]
  omega

theorem nonEmpty_terminated (s : String) :
    (CBuf.terminated s).nonEmpty = true ↔ s ≠ "" := by
  simp only [CBuf.nonEmpty, Bool.not_eq_true', List.isEmpty_eq_false, ne_eq]
  constructor
  · intro h hs; subst hs; exact h rfl
  · intro h hs; exact h (String.ext hs)

/-- C4, as amended. For a command line of the documented form, in a parameter
store where an integer parameter reads as last set:
(1) with `-a` or `-m` and no fixed-parameter file, when opening the
environment and the two calls of `CPXXsetintparam` succeed, `main` reaches
`CPXXtuneparamprobset` and `CPXPARAM_Tune_Measure` then holds the measure of
the last such flag;
(2) with a fixed-parameter file, when every call before the tuning call
succeeds, the store at the tuning call is what `CPXXsetdefaults` left with
only the screen output set again;
(3) with neither `-a` nor `-m`, `main` never calls `CPXXsetintparam` on
`CPXPARAM_Tune_Measure`. -/
theorem measure_at_tuning {ρ : Type} (K : CpxConst) (R : Registry ρ) (s0 : ρ) (S : Script)
    (status0 : Int) (progname : String) (opts : List Opt) (files : List String)
    (hfit : OptsFit opts) (hnd : NoDash files)
    (hlaw : ∀ s whichparam value, R.getint (R.setint s whichparam value) whichparam = value) :
    (∀ m, lastMeasure K opts = some m → lastFixed opts = "" →
      S.openEnv = true → S.setScreen = 0 → S.setMeasure = 0 →
      ∃ r s, main K S status0 (commandLine progname opts files) = Except.ok r ∧
        R.atTune s0 r.trace = some s ∧ R.getint s K.CPXPARAM_Tune_Measure = m) ∧
    (lastFixed opts ≠ "" →
      S.openEnv = true → S.setScreen = 0 → S.setMeasure = 0 → S.readcopy = 0 →
      anyNull S = false → S.changed.length ≤ sizeBytes (toInt32 (-S.surplus)) 4 / 4 →
      S.chgStatus = 0 → S.setdefaults = 0 → S.resetScreen = 0 →
      ∃ r s, main K S status0 (commandLine progname opts files) = Except.ok r ∧
        R.atTune s0 r.trace = some s ∧ R.IsReset K s) ∧
    (lastMeasure K opts = none → K.CPXPARAM_ScreenOutput ≠ K.CPXPARAM_Tune_Measure →
      ∀ r, main K S status0 (commandLine progname opts files) = Except.ok r →
        r.trace.filterMap (Event.measureSet K) = []) := by
  obtain ⟨o, hp, hfx, htn, hme, hms⟩ := parsed_state K progname opts files hfit hnd
  refine ⟨?_, ?_, ?_⟩
  · intro m hm hnof c1 c2 c3
    have hne : o.fixedfile.nonEmpty = false := by
      rw [hfx, hnof]; rfl
    have hopts : opts ≠ [] := by
      rintro rfl; simp [lastMeasure] at hm
    have h2 := commandLine_length progname opts files hopts
    obtain ⟨r, hr⟩ := main_total K S status0 _ o hp
      ⟨⟨_, hfx⟩, ⟨_, htn⟩, fun h => by rw [hne] at h; cases h⟩
    obtain ⟨x, hb, rfl⟩ := main_eq K S status0 _ r hr
    have htuned : x.trace.filterMap Event.tuned ≠ [] :=
      (body_tuned K S status0 _ o x hp h2 hb).mpr
        ⟨⟨c1, c2, fun _ => c3, fun h => by rw [hne] at h; cases h⟩,
          fun h => by rw [hne] at h; cases h⟩
    obtain ⟨s, hs⟩ := atTune_some R x.trace htuned s0
    refine ⟨_, s, hr, by rw [terminate_atTune, hs], ?_⟩
    have := (body_atTune K S status0 _ o x R s0 hp hb s hs).1 hne m (by rw [hme, hm])
      (by rw [hms, hm]; rfl) c3
    rw [this, hlaw]
  · intro hf c1 c2 c3 c4 c5 c6 c7 c8 c9
    have hne : o.fixedfile.nonEmpty = true := by
      rw [hfx]; exact (nonEmpty_terminated _).mpr hf
    have hopts : opts ≠ [] := by
      rintro rfl; exact hf rfl
    have h2 := commandLine_length progname opts files hopts
    obtain ⟨r, hr⟩ := main_total K S status0 _ o hp
      ⟨⟨_, hfx⟩, ⟨_, htn⟩, fun _ => c6⟩
    obtain ⟨x, hb, rfl⟩ := main_eq K S status0 _ r hr
    have htuned : x.trace.filterMap Event.tuned ≠ [] :=
      (body_tuned K S status0 _ o x hp h2 hb).mpr
        ⟨⟨c1, c2, fun _ => c3, fun _ => ⟨c4, c7⟩⟩, fun _ => c5⟩
    obtain ⟨s, hs⟩ := atTune_some R x.trace htuned s0
    exact ⟨_, s, hr, by rw [terminate_atTune, hs],
      (body_atTune K S status0 _ o x R s0 hp hb s hs).2 hne c8 c9⟩
  · intro hm hK r hr
    obtain ⟨x, hb, rfl⟩ := main_eq K S status0 _ r hr
    rw [terminate_measureSet]
    exact body_measureSet K S status0 _ o x hK (by rw [hms, hm]; rfl) hp hb

theorem tableRegistry_law (dflt : Int → Int) (s : Int → Int) (whichparam value : Int) :
    (tableRegistry dflt).getint ((tableRegistry dflt).setint s whichparam value) whichparam =
      value := by
  simp [tableRegistry]

/-- C4 fails as stated. With `xtuneset -m -f fix.prm p.lp` and every call
succeeding, the option loop selects the measure 2 (`CPX_TUNE_MINMAX`), and in
the table store with the defaults of CPLEX 12.6.1 the tuning measure at the
call of `CPXXtuneparamprobset` is 1 (`CPX_TUNE_AVERAGE`), the default that
`CPXXsetdefaults` restored. -/
theorem measure_reset_before_tuning :
    (parseArgs cplex1261 ["xtuneset", "-m", "-f", "fix.prm", "p.lp"]).toOption.map
      (fun o => o.tunemeasure) = some (some 2) ∧
    measureAtTune (observe cplex1261 (okScript [1035, 1110] (fun _ => 1) 2) 0
      ["xtuneset", "-m", "-f", "fix.prm", "p.lp"]) = some 1 := by
  decide

/-- Witness of C4: `xtuneset -a -m -o out.prm p.lp`, in the table store. -/
theorem measure_at_tuning_witness :
    OptsFit [Opt.a, Opt.m, Opt.o "out.prm"] ∧ NoDash ["p.lp"] ∧
    ∃ r s, main cplex1261 (okScript [] (fun _ => 0) 0) 0
        (commandLine "xtuneset" [Opt.a, Opt.m, Opt.o "out.prm"] ["p.lp"]) = Except.ok r ∧
      (tableRegistry cplexDefaults).atTune cplexDefaults r.trace = some s ∧
      (tableRegistry cplexDefaults).getint s cplex1261.CPXPARAM_Tune_Measure = 2 :=
  have hfit : OptsFit [Opt.a, Opt.m, Opt.o "out.prm"] := by
    constructor <;> intro s hs <;> simp [Opt.fixedArg, Opt.tunedArg] at hs
    subst hs
    decide
  have hnd : NoDash ["p.lp"] := by
    intro s hs
    simp at hs
    subst hs
    decide
  ⟨hfit, hnd,
    (measure_at_tuning cplex1261 (tableRegistry cplexDefaults) cplexDefaults
      (okScript [] (fun _ => 0) 0) 0 "xtuneset" [Opt.a, Opt.m, Opt.o "out.prm"] ["p.lp"]
      hfit hnd (tableRegistry_law cplexDefaults)).1 2 (by decide) (by decide) rfl rfl rfl⟩

end Xtuneset

